import Mathlib

/-!
# yiigo: MySQL data-access layer (mysql.go)

A shallow embedding of the filter-clause compiler `formatQuery`, of the lazy pool
initialisers `initReadDbPool` / `initWriteDbPool` (for one caller, and for any number of
concurrent callers as interleaved steps under the mutex), of the checkout functions
`poolGetReadDb` / `poolGetWriteDb` and of the CRUD operations `Insert` and `FindOne`.

External collaborators (gorm, the vitess resource pool, the configuration and the log)
are represented by the calls the program makes on them: a query builder is the table
name, the selected fields and the sequence of conditions attached so far; the outcome
of every external call is an input of the model, and the calls are recorded in a trace.
-/

namespace Yiigo

/-! ## Values and the query builder -/

/-- A Go `interface{}` value as the filter map carries it. -/
inductive Value where
  | null
  | bool (b : Bool)
  | int (i : Int)
  | str (s : String)
  | ints (xs : List Int)
  | strs (xs : List String)
  deriving DecidableEq, Repr

/-- One condition attached to a `*gorm.DB`: a call `Where(query, arg)` or `Not(field, arg)`. -/
inductive Pred where
  | Where (query : String) (arg : Value)
  | Not (field : String) (arg : Value)
  deriving DecidableEq, Repr

/-- The query builder `*gorm.DB` as far as `mysql.go` drives it: the handle it runs on,
its stored `Error`, the settings applied by the connection factory, the table, the
selected fields and the conditions in the order they were attached. -/
structure DB where
  conn : Nat
  Error : Option String
  singularTable : Bool
  logMode : Bool
  table : String
  selects : List String
  conds : List Pred
  deriving DecidableEq, Repr

namespace DB

/-- The call `db.Where(query, arg)`: attaches one condition. -/
def Where (db : DB) (query : String) (arg : Value) : DB :=
  { db with conds := db.conds ++ [Pred.Where query arg] }

/-- The call `db.Not(field, arg)`: attaches one negated condition. -/
def Not (db : DB) (field : String) (arg : Value) : DB :=
  { db with conds := db.conds ++ [Pred.Not field arg] }

/-- The call `db.Table(name)`. -/
def Table (db : DB) (name : String) : DB :=
  { db with table := name }

/-- The call `db.Select(fields)`. -/
def Select (db : DB) (fields : List String) : DB :=
  { db with selects := fields }

/-- A builder with nothing attached yet. -/
def blank : DB :=
  { conn := 0, Error := none, singularTable := false, logMode := false, table := "",
    selects := [], conds := [] }

end DB

/-! ## strings.Split -/

/-- Splitting a character sequence at every occurrence of `sep`; the pieces between
separators are kept, empty ones included, so the result has one more piece than there
are separators. -/
def splitChars (sep : Char) : List Char → List (List Char)
  | [] => [[]]
  | c :: cs =>
    if c = sep then [] :: splitChars sep cs
    else
      match splitChars sep cs with
      | [] => [[c]]
      | p :: ps => (c :: p) :: ps

/-- The call `strings.Split(s, sep)` for a one-character separator (the source only
splits on ":"). Go splits the bytes of the string; for an ASCII separator and a UTF-8
string that is the split of its characters. -/
def Split (s : String) (sep : Char) : List String :=
  (splitChars sep s.data).map String.mk

/-! ## formatQuery -/

/-- The filter map `map[string]interface{}`, given as its entries in the order in which
`range` enumerates them. -/
abbrev Query := List (String × Value)

/-- The `switch tmp[1]` of `formatQuery`, for the field `f = tmp[0]` and `tag = tmp[1]`;
a tag without a case falls through the `switch` and leaves `db` as it is. -/
def formatTag (db : DB) (f tag : String) (value : Value) : DB :=
  if tag = "eq" then db.Where (f ++ " = ?") value
  else if tag = "ne" then db.Where (f ++ " <> ?") value
  else if tag = "ge" then db.Where (f ++ " >= ?") value
  else if tag = "gt" then db.Where (f ++ " > ?") value
  else if tag = "le" then db.Where (f ++ " <= ?") value
  else if tag = "lt" then db.Where (f ++ " < ?") value
  else if tag = "lk" then
    match value with
    | Value.str s => db.Where (f ++ " LIKE ?") (Value.str ("%" ++ s ++ "%"))
    | _ => db
  else if tag = "in" then db.Where (f ++ " in (?)") value
  else if tag = "ni" then db.Not f value
  else if tag = "fi" then db.Where ("find_in_set(?, " ++ f ++ ")") value
  else db

/-- The body of the `range` loop of `formatQuery` for one entry `key, value`:
`tmp := strings.Split(key, ":")`, the `switch` when `len(tmp) == 2`, and the equality on
`tmp[0]` otherwise (`Split` never returns an empty slice, so `tmp[0]` exists). -/
def formatEntry (db : DB) (key : String) (value : Value) : DB :=
  match Split key ':' with
  | [f, tag] => formatTag db f tag value
  | f :: _ => db.Where (f ++ " = ?") value
  | [] => db

/-- The function `formatQuery(db, query)`. -/
def formatQuery (db : DB) (query : Query) : DB :=
  if query.length > 0 then
    query.foldl (fun d kv => formatEntry d kv.1 kv.2) db
  else db

/-- The conditions `formatQuery` attached: what follows the conditions `db` had. -/
def appended (db : DB) (query : Query) : List Pred :=
  (formatQuery db query).conds.drop db.conds.length

/-- The conditions the loop body attaches for one entry, read off a blank builder. -/
def entryConds (kv : String × Value) : List Pred :=
  (formatEntry DB.blank kv.1 kv.2).conds

/-- An entry is skipped when the loop body attaches nothing for it. -/
def skipped (kv : String × Value) : Bool :=
  (entryConds kv).isEmpty

/-- The operator tags the `switch` of `formatQuery` has a case for. -/
def knownTags : List String :=
  ["eq", "ne", "ge", "gt", "le", "lt", "lk", "in", "ni", "fi"]

/-! ## Configuration, pools and the outcomes of external calls -/

/-- The values the configuration collaborator returns (`GetConfigString`, `GetConfigInt`,
`GetConfigBool`), defaults already applied. `tablePre` is the option "prefix". -/
structure Config where
  slaveHost : String
  slavePort : Int
  masterHost : String
  masterPort : Int
  username : String
  password : String
  dbname : String
  charset : String
  tablePre : String
  poolMinActive : Int
  poolMaxActive : Int
  poolIdleTimeout : Int
  debug : Bool
  deriving DecidableEq, Repr

/-- The two roles: the read replica and the write primary. -/
inductive Role where
  | read
  | write
  deriving DecidableEq, Repr

/-- A `*pools.ResourcePool` instance: which instance it is, the parameters it was built
with (the idle timeout in milliseconds) and whether it has been closed. -/
structure ResourcePool where
  id : Nat
  capacity : Int
  maxCap : Int
  idleTimeout : Int
  closed : Bool
  deriving DecidableEq, Repr

/-- The type `Orm`: a pooled resource wrapping a `*gorm.DB`. -/
structure Orm where
  Db : DB
  deriving DecidableEq, Repr

/-- A call the program makes on an external collaborator. `LogError` carries the
arguments of `LogError(...)`, or the formatted message of `LogErrorf(...)`; `Exec` carries
the gorm method that runs the statement and the builder it runs on. -/
inductive Event where
  | NewResourcePool (role : Role) (pool : ResourcePool)
  | Get (role : Role) (resource : Option Orm) (err : Option String)
  | Put (role : Role) (resource : Option Orm)
  | NilPoolPut (role : Role)
  | Open (address : String)
  | Close (conn : Nat)
  | Exec (op : String) (db : DB)
  | LogError (args : List String)
  | Panic (msg : String)
  deriving DecidableEq, Repr

/-- The package-level variables `mysqlReadPool` and `mysqlWritePool` (`none` is the nil
pointer), the number of pool instances built so far, and the calls made so far. The two
mutexes have no effect on a single caller; they appear with the concurrent callers
(`Conc`). -/
structure State where
  mysqlReadPool : Option ResourcePool
  mysqlWritePool : Option ResourcePool
  poolsBuilt : Nat
  trace : List Event
  deriving DecidableEq, Repr

/-- What the environment answers during one operation: the configuration, the result of
the pool's `Get`, the result of `gorm.Open` (an error, or the number of the connection
just opened), the error of `Db.Close` and the error of the executed statement. -/
structure Env where
  config : Config
  borrow : Option Orm × Option String
  dial : Except String Nat
  closeErr : Option String
  execErr : Option String

namespace State

/-- Records one call. -/
def emit (s : State) (e : Event) : State :=
  { s with trace := s.trace ++ [e] }

end State

/-- The calls made between the state `s` and the later state `t`. -/
def newEvents (s t : State) : List Event :=
  t.trace.drop s.trace.length

/-- Whether a call is a `Get` on the pool of `role` that handed out a resource. -/
def Event.isBorrow (role : Role) : Event → Bool
  | Event.Get r (some _) none => r = role
  | _ => false

/-- Whether a call is a `Put` on the pool of `role`. -/
def Event.isRelease (role : Role) : Event → Bool
  | Event.Put r _ => r = role
  | _ => false

/-- The number of successful borrows on the pool of `role` among `evs`. -/
def borrows (role : Role) (evs : List Event) : Nat :=
  evs.countP (Event.isBorrow role)

/-- The number of releases on the pool of `role` among `evs`. -/
def releases (role : Role) (evs : List Event) : Nat :=
  evs.countP (Event.isRelease role)

/-- The change of the pool's count of borrowed slots over `evs`: one up per successful
`Get`, one down per `Put`. -/
def borrowedDelta (role : Role) (evs : List Event) : Int :=
  (borrows role evs : Int) - (releases role evs : Int)

/-! ## The connection factory -/

/-- The handle `gorm.Open` returns for the connection `c`: nothing attached, no stored
error (failure to open is the error result, not a field of the handle). -/
def DB.opened (c : Nat) : DB :=
  { DB.blank with conn := c }

/-- The call `db.SingularTable(enable)`. -/
def DB.SingularTable (db : DB) (enable : Bool) : DB :=
  { db with singularTable := enable }

/-- The call `db.LogMode(enable)`. -/
def DB.LogMode (db : DB) (enable : Bool) : DB :=
  { db with logMode := enable }

/-- The address built by `fmt.Sprintf` in `initReadDb` and `initWriteDb`. -/
def address (username password host : String) (port : Int) (dbname charset : String) :
    String :=
  username ++ ":" ++ password ++ "@tcp(" ++ host ++ ":" ++ toString port ++ ")/" ++ dbname
    ++ "?charset=" ++ charset ++ "&parseTime=True&loc=Local"

/-- The function `initReadDb()`: `Except.error err` is the return `nil, err`, and
`Except.ok db` the return `readDb, err` with `err == nil`. -/
def initReadDb (env : Env) (s : State) : Except String DB × State :=
  let c := env.config
  let s := s.emit (Event.Open (address c.username c.password c.slaveHost c.slavePort
    c.dbname c.charset))
  match env.dial with
  | Except.error err => (Except.error err, s.emit (Event.LogError ["connect mysql error: ", err]))
  | Except.ok conn =>
    let readDb := (DB.opened conn).SingularTable true
    let readDb := if c.debug then readDb.LogMode true else readDb
    (Except.ok readDb, s)

/-- The function `initWriteDb()`. -/
def initWriteDb (env : Env) (s : State) : Except String DB × State :=
  let c := env.config
  let s := s.emit (Event.Open (address c.username c.password c.masterHost c.masterPort
    c.dbname c.charset))
  match env.dial with
  | Except.error err => (Except.error err, s.emit (Event.LogError ["connect mysql error: ", err]))
  | Except.ok conn =>
    let writeDb := (DB.opened conn).SingularTable true
    let writeDb := if c.debug then writeDb.LogMode true else writeDb
    (Except.ok writeDb, s)

/-! ## The pool manager -/

/-- The test `pool == nil`. -/
def isNil (pool : Option ResourcePool) : Bool :=
  match pool with
  | none => true
  | some _ => false

/-- The call `pool.IsClosed()`; it is only evaluated on a pool that is not nil. -/
def IsClosed (pool : Option ResourcePool) : Bool :=
  match pool with
  | none => false
  | some p => p.closed

/-- The call `pools.NewResourcePool(factory, capacity, maxCap, idleTimeout)`: a new pool
instance, open, with these parameters. The pool library is outside the repository; that
it rejects a capacity out of range is not represented. -/
def NewResourcePool (id : Nat) (capacity maxCap idleTimeout : Int) : ResourcePool :=
  { id := id, capacity := capacity, maxCap := maxCap, idleTimeout := idleTimeout,
    closed := false }

/-- The function `initReadDbPool()`: the outer test `nil || IsClosed()`, and under the
lock the inner test `nil` that guards the construction. -/
def initReadDbPool (env : Env) (s : State) : State :=
  if isNil s.mysqlReadPool || IsClosed s.mysqlReadPool then
    if isNil s.mysqlReadPool then
      let poolMinActive := env.config.poolMinActive
      let poolMaxActive := env.config.poolMaxActive
      let poolIdleTimeout := env.config.poolIdleTimeout
      let pool := NewResourcePool s.poolsBuilt poolMinActive poolMaxActive poolIdleTimeout
      { s with mysqlReadPool := some pool, poolsBuilt := s.poolsBuilt + 1,
               trace := s.trace ++ [Event.NewResourcePool Role.read pool] }
    else s
  else s

/-- The function `initWriteDbPool()`. -/
def initWriteDbPool (env : Env) (s : State) : State :=
  if isNil s.mysqlWritePool || IsClosed s.mysqlWritePool then
    let poolMinActive := env.config.poolMinActive
    let poolMaxActive := env.config.poolMaxActive
    let poolIdleTimeout := env.config.poolIdleTimeout
    if isNil s.mysqlWritePool then
      let pool := NewResourcePool s.poolsBuilt poolMinActive poolMaxActive poolIdleTimeout
      { s with mysqlWritePool := some pool, poolsBuilt := s.poolsBuilt + 1,
               trace := s.trace ++ [Event.NewResourcePool Role.write pool] }
    else s
  else s

/-! ## The checkout coordinator -/

/-- The method `Orm.Close()`: closes the connection of the handle and logs a failure. -/
def Orm.Close (o : Orm) (env : Env) (s : State) : State :=
  let s := s.emit (Event.Close o.Db.conn)
  match env.closeErr with
  | some err => s.emit (Event.LogError ["mysql connection close error: ", err])
  | none => s

/-- The function `poolGetReadDb()`; the result is the pair `(pools.Resource, error)`. -/
def poolGetReadDb (env : Env) (s : State) : (Option Orm × Option String) × State :=
  let s := initReadDbPool env s
  if isNil s.mysqlReadPool then
    ((none, some "mysql read db pool is null"),
      s.emit (Event.LogError ["mysql read db pool is null"]))
  else
    let readOrmResource := env.borrow.1
    let err := env.borrow.2
    let s := s.emit (Event.Get Role.read readOrmResource err)
    match err with
    | some e => ((none, some e), s.emit (Event.LogError ["mysql get read db error: ", e]))
    | none =>
      match readOrmResource with
      | none =>
        ((none, some "mysql read pool resource is null"),
          s.emit (Event.LogError ["mysql read pool resource is null"]))
      | some orm =>
        match orm.Db.Error with
        | some dbErr =>
          let s := s.emit (Event.LogError ["mysql read resource connection err: ", dbErr])
          let s := orm.Close env s
          match initReadDb env s with
          | (Except.error connErr, s) =>
            ((none, some connErr),
              s.emit (Event.LogError ["mysql read db reconnection err: ", connErr]))
          | (Except.ok db, s) => ((some { Db := db }, none), s)
        | none => ((readOrmResource, err), s)

/-- The function `poolGetWriteDb()`. -/
def poolGetWriteDb (env : Env) (s : State) : (Option Orm × Option String) × State :=
  let s := initWriteDbPool env s
  if isNil s.mysqlWritePool then
    ((none, some "mysql write db pool is null"),
      s.emit (Event.LogError ["mysql write db pool is null"]))
  else
    let writeOrmResource := env.borrow.1
    let err := env.borrow.2
    let s := s.emit (Event.Get Role.write writeOrmResource err)
    match err with
    | some e => ((none, some e), s.emit (Event.LogError ["mysql get write db error: ", e]))
    | none =>
      match writeOrmResource with
      | none =>
        ((none, some "mysql write pool resource is null"),
          s.emit (Event.LogError ["mysql write pool resource is null"]))
      | some orm =>
        match orm.Db.Error with
        | some dbErr =>
          let s := s.emit (Event.LogError ["mysql write resource connection err: ", dbErr])
          let s := orm.Close env s
          match initWriteDb env s with
          | (Except.error connErr, s) =>
            ((none, some connErr),
              s.emit (Event.LogError ["mysql write db reconnection err: ", connErr]))
          | (Except.ok db, s) => ((some { Db := db }, none), s)
        | none => ((writeOrmResource, err), s)

/-! ## CRUD operations -/

/-- The type `MysqlBase`. -/
structure MysqlBase where
  TableName : String
  deriving DecidableEq, Repr

/-- The deferred call `pool.Put(dbResource)`, `pool` being the value the package
variable had when the `defer` statement ran; on a nil pool the call dereferences nil. -/
def Put (role : Role) (pool : Option ResourcePool) (dbResource : Option Orm) (s : State) :
    State :=
  if isNil pool then s.emit (Event.NilPoolPut role)
  else s.emit (Event.Put role dbResource)

/-- The table name with the configured "prefix" in front when there is one. -/
def tableOf (env : Env) (m : MysqlBase) : String :=
  if env.config.tablePre ≠ "" then env.config.tablePre ++ m.TableName else m.TableName

/-- The method `MysqlBase.Insert(data)`; the result is the returned `error`. The deferred
`Put` runs on every way out. -/
def MysqlBase.Insert (m : MysqlBase) (env : Env) (s : State) : Option String × State :=
  match poolGetWriteDb env s with
  | ((dbResource, err), s) =>
    let deferred := Put Role.write s.mysqlWritePool dbResource
    match err with
    | some e => (some e, deferred s)
    | none =>
      match dbResource with
      | none => (some "panic", deferred (s.emit (Event.Panic "interface conversion: nil")))
      | some orm =>
        let db := orm.Db
        if m.TableName = "" then
          (some "tablename empty",
            deferred (s.emit (Event.LogError ["init db error: tablename empty"])))
        else
          let table := tableOf env m
          let s := s.emit (Event.Exec "Create" (db.Table table))
          match env.execErr with
          | some insertErr =>
            (some insertErr,
              deferred (s.emit (Event.LogError
                ["mysql table " ++ m.TableName ++ " insert error: " ++ insertErr])))
          | none => (none, deferred s)

/-- The method `MysqlBase.FindOne(query, data, fields...)`. -/
def MysqlBase.FindOne (m : MysqlBase) (query : Query) (fields : List (List String))
    (env : Env) (s : State) : Option String × State :=
  match poolGetReadDb env s with
  | ((dbResource, err), s) =>
    let deferred := Put Role.read s.mysqlReadPool dbResource
    match err with
    | some e => (some e, deferred s)
    | none =>
      match dbResource with
      | none => (some "panic", deferred (s.emit (Event.Panic "interface conversion: nil")))
      | some orm =>
        let db := orm.Db
        if m.TableName = "" then
          (some "tablename empty",
            deferred (s.emit (Event.LogError ["init db error: tablename empty"])))
        else
          let table := tableOf env m
          let db := db.Table table
          let db :=
            match fields with
            | first :: _ => db.Select first
            | [] => db
          let db := formatQuery db query
          let s := s.emit (Event.Exec "First" db)
          match env.execErr with
          | some findErr =>
            if findErr ≠ "record not found" then
              (some findErr,
                deferred (s.emit (Event.LogError
                  ["mysql table " ++ m.TableName ++ " findone error: " ++ findErr])))
            else (some findErr, deferred s)
          | none => (none, deferred s)

/-! ## Concurrent callers of the pool initialisers -/

/-- Where a caller of `initReadDbPool` / `initWriteDbPool` stands: before the unlocked
outer test, waiting in `Lock()`, holding the mutex before the inner test, holding the
mutex with the deferred `Unlock()` still to run, or returned. -/
inductive PC where
  | outer
  | lock
  | inner
  | unlock
  | done
  deriving DecidableEq, Repr

/-- Any number of callers of the initialiser of one role: the package state they share,
the holder of that role's mutex (`mysqlReadPoolMux` or `mysqlWritePoolMux`), and where
each caller stands. -/
structure Conc where
  shared : State
  mux : Option Nat
  pc : Nat → PC

/-- The package variable holding the pool of a role. -/
def poolOf (role : Role) (s : State) : Option ResourcePool :=
  match role with
  | Role.read => s.mysqlReadPool
  | Role.write => s.mysqlWritePool

/-- The initialiser of a role. -/
def initPoolOf (role : Role) (env : Env) (s : State) : State :=
  match role with
  | Role.read => initReadDbPool env s
  | Role.write => initWriteDbPool env s

/-- The statements guarded by the inner test `pool == nil`: read the three pool options,
build the pool and store it in the variable of the role. -/
def construct (role : Role) (env : Env) (s : State) : State :=
  let poolMinActive := env.config.poolMinActive
  let poolMaxActive := env.config.poolMaxActive
  let poolIdleTimeout := env.config.poolIdleTimeout
  let pool := NewResourcePool s.poolsBuilt poolMinActive poolMaxActive poolIdleTimeout
  match role with
  | Role.read =>
    { s with mysqlReadPool := some pool, poolsBuilt := s.poolsBuilt + 1,
             trace := s.trace ++ [Event.NewResourcePool Role.read pool] }
  | Role.write =>
    { s with mysqlWritePool := some pool, poolsBuilt := s.poolsBuilt + 1,
             trace := s.trace ++ [Event.NewResourcePool Role.write pool] }

namespace Conc

/-- Moves caller `i` to `p`. -/
def setPc (c : Conc) (i : Nat) (p : PC) : Conc :=
  { c with pc := fun j => if j = i then p else c.pc j }

end Conc

/-- One step of caller `i` of the initialiser of `role`.
* At the outer test the read of the variable is not under the mutex: with `stale` the
  caller still sees the nil the variable had, whatever has been stored since; otherwise
  it sees the current value. Seeing nil or a closed pool it goes on to `Lock()`, seeing
  an open pool it returns.
* `Lock()` succeeds when nobody holds the mutex, and otherwise the caller stays blocked.
* Under the mutex the inner test reads the current value and builds the pool iff it is
  nil.
* The deferred `Unlock()` frees the mutex and the caller returns. -/
def stepInit (role : Role) (env : Env) (c : Conc) (i : Nat) (stale : Bool) : Conc :=
  match c.pc i with
  | PC.outer =>
    if stale || isNil (poolOf role c.shared) || IsClosed (poolOf role c.shared) then
      c.setPc i PC.lock
    else c.setPc i PC.done
  | PC.lock =>
    match c.mux with
    | none => { c.setPc i PC.inner with mux := some i }
    | some _ => c
  | PC.inner =>
    if isNil (poolOf role c.shared) then
      { c.setPc i PC.unlock with shared := construct role env c.shared }
    else c.setPc i PC.unlock
  | PC.unlock => { c.setPc i PC.done with mux := none }
  | PC.done => c

/-- A schedule: which caller moves next, and whether an outer read it makes is stale. -/
abbrev Schedule := List (Nat × Bool)

/-- Runs a schedule. -/
def runInit (role : Role) (env : Env) (sched : Schedule) (c : Conc) : Conc :=
  sched.foldl (fun c x => stepInit role env c x.1 x.2) c

/-- Every caller is about to call the initialiser, on the shared state `s`. -/
def startConc (s : State) : Conc :=
  { shared := s, mux := none, pc := fun _ => PC.outer }

/-- Whether a call is the construction of a pool for `role`. -/
def Event.isConstruct (role : Role) : Event → Bool
  | Event.NewResourcePool r _ => r = role
  | _ => false

/-- The number of pools constructed for `role` among `evs`. -/
def constructions (role : Role) (evs : List Event) : Nat :=
  evs.countP (Event.isConstruct role)

/-- The invariant of the concurrent callers started on `s0`: the shared state is `s0` or
the result of one initialisation of it; a caller past `Lock()` and not yet through
`Unlock()` holds the mutex, and the holder of the mutex is such a caller; a caller that
is through the inner test, or has returned, shares the initialised state. -/
def ConcInv (role : Role) (env : Env) (s0 : State) (c : Conc) : Prop :=
  (c.shared = s0 ∨ c.shared = initPoolOf role env s0) ∧
  (∀ i, c.pc i = PC.inner ∨ c.pc i = PC.unlock → c.mux = some i) ∧
  (∀ h, c.mux = some h → c.pc h = PC.inner ∨ c.pc h = PC.unlock) ∧
  (∀ i, c.pc i = PC.unlock ∨ c.pc i = PC.done → c.shared = initPoolOf role env s0)

/-- The number of steps a caller still has to make before it has returned. -/
def remaining : PC → Nat
  | PC.outer => 4
  | PC.lock => 3
  | PC.inner => 2
  | PC.unlock => 1
  | PC.done => 0

/-- Caller `i` is the holder of the mutex when it stands between `Lock()` and
`Unlock()`, and otherwise the mutex is free. -/
def placed (c : Conc) (i : Nat) : Prop :=
  if c.pc i = PC.inner ∨ c.pc i = PC.unlock then c.mux = some i else c.mux = none

/-- A state in which neither pool exists yet. -/
def absentState : State :=
  { mysqlReadPool := none, mysqlWritePool := none, poolsBuilt := 0, trace := [] }

/-- Three callers interleaved: callers 0 and 1 pass the outer test, caller 1 takes the
mutex first and builds the pool, caller 2 makes a stale read after that, and all three
go through the mutex in turn and return. -/
def threeCallers : Schedule :=
  [(0, false), (1, false), (1, false), (0, false), (1, false), (2, true), (1, false),
   (0, false), (2, false), (0, false), (0, false), (2, false), (2, false), (2, false)]

/-! ## Concrete inputs -/

/-- The configuration made of the defaults the source passes to `GetConfig...`. -/
def defaultConfig : Config :=
  { slaveHost := "localhost", slavePort := 3306, masterHost := "localhost",
    masterPort := 3306, username := "root", password := "root", dbname := "yiicms",
    charset := "utf8mb4", tablePre := "", poolMinActive := 100, poolMaxActive := 200,
    poolIdleTimeout := 2000, debug := true }

/-- A state in which both pools exist and are open, and nothing has been called yet. -/
def openState : State :=
  { mysqlReadPool := some (NewResourcePool 0 100 200 2000),
    mysqlWritePool := some (NewResourcePool 1 100 200 2000),
    poolsBuilt := 2, trace := [] }

/-- A state in which both pools exist and have been closed. -/
def closedState : State :=
  { mysqlReadPool := some { NewResourcePool 0 100 200 2000 with closed := true },
    mysqlWritePool := some { NewResourcePool 1 100 200 2000 with closed := true },
    poolsBuilt := 2, trace := [] }

/-- A pooled handle on connection 7 whose stored error is set. -/
def staleOrm : Orm :=
  { Db := { DB.opened 7 with Error := some "invalid connection" } }

/-- The pool hands out the stale handle, and opening connection 8 succeeds. -/
def staleEnv : Env :=
  { config := defaultConfig, borrow := (some staleOrm, none), dial := Except.ok 8,
    closeErr := none, execErr := none }

/-- The pool's `Get` fails (its factory cannot connect) and hands out nothing. -/
def failedGetEnv : Env :=
  { config := defaultConfig, borrow := (none, some "dial tcp 127.0.0.1:3306: connection refused"),
    dial := Except.error "dial tcp 127.0.0.1:3306: connection refused",
    closeErr := none, execErr := none }

end Yiigo

namespace Yiigo

/-! ## Lemmas on splitting -/

theorem splitChars_ne_nil (sep : Char) (l : List Char) : splitChars sep l ≠ [] := by
  induction l with
  | nil => simp [splitChars]
  | cons c cs ih =>
    unfold splitChars
    split
    · simp
    · split
      · simp
      · simp

theorem splitChars_of_not_mem (sep : Char) (l : List Char) (h : sep ∉ l) :
    splitChars sep l = [l] := by
  induction l with
  | nil => simp [splitChars]
  | cons c cs ih =>
    have hc : c ≠ sep := fun e => h (by simp [e])
    have hcs : sep ∉ cs := fun e => h (by simp [e])
    simp [splitChars, hc, ih hcs]

theorem splitChars_append_sep (sep : Char) (f t : List Char) (h : sep ∉ f) :
    splitChars sep (f ++ sep :: t) = f :: splitChars sep t := by
  induction f with
  | nil => simp [splitChars]
  | cons c cs ih =>
    have hc : c ≠ sep := fun e => h (by simp [e])
    have hcs : sep ∉ cs := fun e => h (by simp [e])
    simp [splitChars, hc, ih hcs]

theorem splitChars_head (sep : Char) (l : List Char) :
    (splitChars sep l).head? = some (l.takeWhile (fun c => c ≠ sep)) := by
  induction l with
  | nil => simp [splitChars]
  | cons c cs ih =>
    unfold splitChars
    by_cases hc : c = sep
    · simp [hc]
    · simp only [hc, if_false]
      split
      · rename_i h0
        exact absurd h0 (splitChars_ne_nil sep cs)
      · rename_i p ps h0
        rw [h0] at ih
        simp at ih
        simp [List.takeWhile, hc, ih]

theorem splitChars_length (sep : Char) (l : List Char) :
    (splitChars sep l).length = l.count sep + 1 := by
  induction l with
  | nil => simp [splitChars]
  | cons c cs ih =>
    unfold splitChars
    by_cases hc : c = sep
    · simp [hc, ih]
    · simp only [hc, if_false]
      split
      · rename_i h0
        exact absurd h0 (splitChars_ne_nil sep cs)
      · rename_i p ps h0
        rw [h0] at ih
        have : List.count sep (c :: cs) = List.count sep cs := by
          rw [List.count_cons]; simp [hc]
        rw [this]
        simpa using ih

theorem Split_field_tag (f tag : String) (hf : ':' ∉ f.data) (ht : ':' ∉ tag.data) :
    Split (f ++ ":" ++ tag) ':' = [f, tag] := by
  have h : (f ++ ":" ++ tag).data = f.data ++ ':' :: tag.data := by
    simp [String.data_append]
  simp [Split, h, splitChars_append_sep _ _ _ hf, splitChars_of_not_mem _ _ ht]

theorem Split_no_sep (f : String) (hf : ':' ∉ f.data) : Split f ':' = [f] := by
  simp [Split, splitChars_of_not_mem _ _ hf]

/-! ## Lemmas on formatQuery -/

theorem formatQuery_single (db : DB) (key : String) (v : Value) :
    formatQuery db [(key, v)] = formatEntry db key v := by
  simp [formatQuery]

theorem formatEntry_eq_default (db : DB) (key f : String) (v : Value)
    (h : Split key ':' = [f]) : formatEntry db key v = db.Where (f ++ " = ?") v := by
  simp [formatEntry, h]

theorem formatEntry_pair (db : DB) (key f tag : String) (v : Value)
    (h : Split key ':' = [f, tag]) : formatEntry db key v = formatTag db f tag v := by
  simp [formatEntry, h]

theorem formatEntry_long (db : DB) (key f a b : String) (rest : List String) (v : Value)
    (h : Split key ':' = f :: a :: b :: rest) :
    formatEntry db key v = db.Where (f ++ " = ?") v := by
  simp [formatEntry, h]

/-- The `switch` attaches nothing or one condition, after those already present, and
which one does not depend on the builder. -/
theorem formatTag_conds (db : DB) (f tag : String) (v : Value) :
    formatTag db f tag v = { db with conds := db.conds ++ (formatTag DB.blank f tag v).conds } ∧
    ((formatTag DB.blank f tag v).conds = [] ∨ ∃ p, (formatTag DB.blank f tag v).conds = [p]) := by
  unfold formatTag
  simp only [DB.Where, DB.Not, DB.blank]
  by_cases h1 : tag = "eq"
  · simp [h1]
  by_cases h2 : tag = "ne"
  · simp [h1, h2]
  by_cases h3 : tag = "ge"
  · simp [h1, h2, h3]
  by_cases h4 : tag = "gt"
  · simp [h1, h2, h3, h4]
  by_cases h5 : tag = "le"
  · simp [h1, h2, h3, h4, h5]
  by_cases h6 : tag = "lt"
  · simp [h1, h2, h3, h4, h5, h6]
  by_cases h7 : tag = "lk"
  · cases v <;> simp [h1, h2, h3, h4, h5, h6, h7]
  by_cases h8 : tag = "in"
  · simp [h1, h2, h3, h4, h5, h6, h7, h8]
  by_cases h9 : tag = "ni"
  · simp [h1, h2, h3, h4, h5, h6, h7, h8, h9]
  by_cases h10 : tag = "fi"
  · simp [h1, h2, h3, h4, h5, h6, h7, h8, h9, h10]
  simp [h1, h2, h3, h4, h5, h6, h7, h8, h9, h10]

theorem formatTag_unknown (db : DB) (f tag : String) (v : Value) (h : tag ∉ knownTags) :
    formatTag db f tag v = db := by
  simp [knownTags] at h
  simp [formatTag, h]

/-- Every entry attaches its conditions after those already present, and which ones it
attaches does not depend on the builder. -/
theorem formatEntry_conds (db : DB) (key : String) (v : Value) :
    formatEntry db key v = { db with conds := db.conds ++ entryConds (key, v) } := by
  simp only [entryConds, formatEntry]
  split
  · exact (formatTag_conds db _ _ v).1
  · simp [DB.Where, DB.blank]
  · simp [DB.blank]

theorem entryConds_nil_or_single (kv : String × Value) :
    entryConds kv = [] ∨ ∃ p, entryConds kv = [p] := by
  simp only [entryConds, formatEntry]
  split
  · exact (formatTag_conds DB.blank _ _ kv.2).2
  · simp [DB.Where, DB.blank]
  · simp [DB.blank]

theorem foldl_formatEntry (q : Query) (db : DB) :
    q.foldl (fun d kv => formatEntry d kv.1 kv.2) db =
      { db with conds := db.conds ++ q.flatMap entryConds } := by
  induction q generalizing db with
  | nil => simp
  | cons kv rest ih =>
    rw [List.foldl_cons, ih, formatEntry_conds]
    simp [List.flatMap_cons, List.append_assoc]

theorem formatQuery_conds (db : DB) (q : Query) :
    formatQuery db q = { db with conds := db.conds ++ q.flatMap entryConds } := by
  unfold formatQuery
  split
  · exact foldl_formatEntry q db
  · rename_i h
    have : q = [] := by
      cases q with
      | nil => rfl
      | cons a l => simp at h
    simp [this]

theorem appended_eq (db : DB) (q : Query) : appended db q = q.flatMap entryConds := by
  simp [appended, formatQuery_conds]

theorem length_flatMap_entryConds (q : Query) :
    (q.flatMap entryConds).length = (q.filter (fun kv => !skipped kv)).length := by
  induction q with
  | nil => simp
  | cons kv rest ih =>
    rw [List.flatMap_cons, List.length_append, ih]
    rcases entryConds_nil_or_single kv with h | ⟨p, h⟩
    · simp [List.filter_cons, skipped, h]
    · simp [List.filter_cons, skipped, h]
      omega

/-! ## The filter compiler: operator table -/

theorem formatQuery_tagged (db : DB) (f tag : String) (v : Value) (hf : ':' ∉ f.data)
    (ht : ':' ∉ tag.data) :
    formatQuery db [(f ++ ":" ++ tag, v)] = formatTag db f tag v := by
  rw [formatQuery_single, formatEntry_pair db _ f tag v (Split_field_tag f tag hf ht)]

/-- C1: for every builder `db`, every field name `f` without ':' and every value `v`,
compiling the one-entry map with key `f:tag` attaches exactly one condition to `db` and
changes nothing else: `f = ?` for eq, `f <> ?` for ne, `f >= ?` for ge, `f > ?` for gt,
`f <= ?` for le, `f < ?` for lt, `f in (?)` for in, `find_in_set(?, f)` for fi, each bound
to `v` itself, and `Not(f, v)` for ni; the key `f` without a suffix attaches `f = ?` bound
to `v`. The SQL text is built from the key alone and `v` only appears as the bound
argument. -/
theorem formatQuery_operator_table (db : DB) (f : String) (v : Value)
    (hf : ':' ∉ f.data) :
    formatQuery db [(f ++ ":" ++ "eq", v)]
      = { db with conds := db.conds ++ [Pred.Where (f ++ " = ?") v] } ∧
    formatQuery db [(f ++ ":" ++ "ne", v)]
      = { db with conds := db.conds ++ [Pred.Where (f ++ " <> ?") v] } ∧
    formatQuery db [(f ++ ":" ++ "ge", v)]
      = { db with conds := db.conds ++ [Pred.Where (f ++ " >= ?") v] } ∧
    formatQuery db [(f ++ ":" ++ "gt", v)]
      = { db with conds := db.conds ++ [Pred.Where (f ++ " > ?") v] } ∧
    formatQuery db [(f ++ ":" ++ "le", v)]
      = { db with conds := db.conds ++ [Pred.Where (f ++ " <= ?") v] } ∧
    formatQuery db [(f ++ ":" ++ "lt", v)]
      = { db with conds := db.conds ++ [Pred.Where (f ++ " < ?") v] } ∧
    formatQuery db [(f ++ ":" ++ "in", v)]
      = { db with conds := db.conds ++ [Pred.Where (f ++ " in (?)") v] } ∧
    formatQuery db [(f ++ ":" ++ "fi", v)]
      = { db with conds := db.conds ++ [Pred.Where ("find_in_set(?, " ++ f ++ ")") v] } ∧
    formatQuery db [(f ++ ":" ++ "ni", v)]
      = { db with conds := db.conds ++ [Pred.Not f v] } ∧
    formatQuery db [(f, v)]
      = { db with conds := db.conds ++ [Pred.Where (f ++ " = ?") v] } := by
  refine ⟨?_, ?_, ?_, ?_, ?_, ?_, ?_, ?_, ?_, ?_⟩
  · rw [formatQuery_tagged db f "eq" v hf (by decide)]; rfl
  · rw [formatQuery_tagged db f "ne" v hf (by decide)]; rfl
  · rw [formatQuery_tagged db f "ge" v hf (by decide)]; rfl
  · rw [formatQuery_tagged db f "gt" v hf (by decide)]; rfl
  · rw [formatQuery_tagged db f "le" v hf (by decide)]; rfl
  · rw [formatQuery_tagged db f "lt" v hf (by decide)]; rfl
  · rw [formatQuery_tagged db f "in" v hf (by decide)]; rfl
  · rw [formatQuery_tagged db f "fi" v hf (by decide)]; rfl
  · rw [formatQuery_tagged db f "ni" v hf (by decide)]; rfl
  · rw [formatQuery_single, formatEntry_eq_default db f f v (Split_no_sep f hf)]; rfl

/-- Witness for C1 at the field `id`, the value `[1, 2, 3]` and a blank builder. -/
theorem formatQuery_operator_table_witness :
    ':' ∉ "id".data ∧
    formatQuery DB.blank [("id" ++ ":" ++ "in", Value.ints [1, 2, 3])]
      = { DB.blank with conds := DB.blank.conds ++ [Pred.Where ("id" ++ " in (?)") (Value.ints [1, 2, 3])] } ∧
    formatQuery DB.blank [("id", Value.ints [1, 2, 3])]
      = { DB.blank with conds := DB.blank.conds ++ [Pred.Where ("id" ++ " = ?") (Value.ints [1, 2, 3])] } :=
  ⟨by decide,
   (formatQuery_operator_table DB.blank "id" (Value.ints [1, 2, 3]) (by decide)).2.2.2.2.2.2.1,
   (formatQuery_operator_table DB.blank "id" (Value.ints [1, 2, 3]) (by decide)).2.2.2.2.2.2.2.2.2⟩

/-! ## The filter compiler: pattern match -/

/-- C2, counterexample: the field `a:b` gives the key `a:b:lk`, which splits into three
parts, so the entry is compiled as the equality `a = ?` bound to the value as it is: with
the string `x` no `LIKE` condition is attached, and with the number 5 a condition is
attached although the value is not a string. -/
theorem formatQuery_lk_colon_field :
    formatQuery DB.blank [("a:b" ++ ":" ++ "lk", Value.str "x")]
      = { DB.blank with conds := DB.blank.conds ++ [Pred.Where "a = ?" (Value.str "x")] } ∧
    formatQuery DB.blank [("a:b" ++ ":" ++ "lk", Value.str "x")]
      ≠ { DB.blank with conds := DB.blank.conds ++
            [Pred.Where ("a:b" ++ " LIKE ?") (Value.str ("%" ++ "x" ++ "%"))] } ∧
    formatQuery DB.blank [("a:b" ++ ":" ++ "lk", Value.int 5)]
      = { DB.blank with conds := DB.blank.conds ++ [Pred.Where "a = ?" (Value.int 5)] } ∧
    formatQuery DB.blank [("a:b" ++ ":" ++ "lk", Value.int 5)] ≠ DB.blank := by
  decide

/-- C2, amended: for every builder `db` and every field `f` without ':', the entry with
key `f:lk` and a string `s` attaches exactly one condition `f LIKE ?` bound to
`%` ++ s ++ `%`, and with a value that is not a string it attaches nothing: the query
returned is the query given. -/
theorem formatQuery_lk (db : DB) (f : String) (hf : ':' ∉ f.data) :
    (∀ s : String, formatQuery db [(f ++ ":" ++ "lk", Value.str s)]
      = { db with conds := db.conds ++
            [Pred.Where (f ++ " LIKE ?") (Value.str ("%" ++ s ++ "%"))] }) ∧
    (∀ v : Value, (∀ s : String, v ≠ Value.str s) →
      formatQuery db [(f ++ ":" ++ "lk", v)] = db) := by
  refine ⟨fun s => ?_, fun v hv => ?_⟩
  · rw [formatQuery_tagged db f "lk" _ hf (by decide)]; rfl
  · rw [formatQuery_tagged db f "lk" _ hf (by decide)]
    cases v with
    | str s => exact absurd rfl (hv s)
    | _ => rfl

/-- Witness for C2 (amended) at the field `name` with the string `ann`, and at the field
`id` with the number 5. -/
theorem formatQuery_lk_witness :
    (':' ∉ "name".data ∧
      formatQuery DB.blank [("name" ++ ":" ++ "lk", Value.str "ann")]
        = { DB.blank with conds := DB.blank.conds ++
              [Pred.Where ("name" ++ " LIKE ?") (Value.str ("%" ++ "ann" ++ "%"))] }) ∧
    (':' ∉ "id".data ∧ (∀ s : String, Value.int 5 ≠ Value.str s) ∧
      formatQuery DB.blank [("id" ++ ":" ++ "lk", Value.int 5)] = DB.blank) :=
  ⟨⟨by decide, (formatQuery_lk DB.blank "name" (by decide)).1 "ann"⟩,
   ⟨by decide, fun _ h => Value.noConfusion h,
    (formatQuery_lk DB.blank "id" (by decide)).2 (Value.int 5) (fun _ h => Value.noConfusion h)⟩⟩

/-! ## The filter compiler: unknown tags -/

/-- C3: an entry whose key splits on ':' into exactly `(f, tag)` with `tag` none of eq,
ne, ge, gt, le, lt, lk, in, ni, fi attaches nothing: it is skipped, compiling it alone
returns the builder, compiling a map with it gives the result of compiling the map
without it (the other entries in the same order), and in whatever order the other
entries are enumerated the conditions attached are the same up to order. This covers the
empty tag of a key `f:`. The function is total: there is no error result. -/
theorem formatQuery_unknown_tag (db : DB) (pre post : Query) (key f tag : String)
    (v : Value) (hs : Split key ':' = [f, tag]) (ht : tag ∉ knownTags) :
    skipped (key, v) = true ∧
    formatQuery db [(key, v)] = db ∧
    formatQuery db (pre ++ (key, v) :: post) = formatQuery db (pre ++ post) ∧
    (∀ others : Query, others.Perm (pre ++ post) →
      (appended db (pre ++ (key, v) :: post)).Perm (appended db others)) ∧
    (∀ g : String, ':' ∉ g.data → Split (g ++ ":") ':' = [g, ""] ∧ "" ∉ knownTags) := by
  have he : entryConds (key, v) = [] := by
    simp [entryConds, formatEntry_pair _ _ _ _ _ hs, formatTag_unknown _ _ _ _ ht, DB.blank]
  refine ⟨by simp [skipped, he], ?_, ?_, ?_, ?_⟩
  · rw [formatQuery_single, formatEntry_pair _ _ _ _ _ hs, formatTag_unknown _ _ _ _ ht]
  · simp [formatQuery_conds, he]
  · intro others hp
    simp only [appended_eq]
    have : (pre ++ (key, v) :: post).flatMap entryConds = (pre ++ post).flatMap entryConds := by
      simp [he]
    rw [this]
    exact (hp.flatMap_right entryConds).symm
  · intro g hg
    refine ⟨?_, by decide⟩
    have := Split_field_tag g "" hg (by decide)
    simpa using this

/-- Witness for C3 at the key `a:xx` between two other entries. -/
theorem formatQuery_unknown_tag_witness :
    Split "a:xx" ':' = ["a", "xx"] ∧ "xx" ∉ knownTags ∧
    formatQuery DB.blank ([("b", Value.int 1)] ++ ("a:xx", Value.int 2) :: [("c:gt", Value.int 3)])
      = formatQuery DB.blank ([("b", Value.int 1)] ++ [("c:gt", Value.int 3)]) :=
  ⟨by decide, by decide,
   (formatQuery_unknown_tag DB.blank [("b", Value.int 1)] [("c:gt", Value.int 3)] "a:xx" "a" "xx"
      (Value.int 2) (by decide) (by decide)).2.2.1⟩

/-! ## The filter compiler: enumeration order -/

/-- C4: for every builder and any two enumerations `m1`, `m2` of the same entries, the
builder returned is the builder given with conditions attached at the end, the two
sequences of attached conditions are permutations of one another, and there is one
condition per entry that is not skipped. The map with `age:ge` 18 and `name:lk` `ann`
attaches `age >= ?` bound to 18 and `name LIKE ?` bound to `%ann%`, in the order of
enumeration. -/
theorem formatQuery_order_independent (db : DB) (m1 m2 : Query) (h : m1.Perm m2) :
    formatQuery db m1 = { db with conds := db.conds ++ appended db m1 } ∧
    formatQuery db m2 = { db with conds := db.conds ++ appended db m2 } ∧
    (appended db m1).Perm (appended db m2) ∧
    (appended db m1).length = (m1.filter (fun kv => !skipped kv)).length ∧
    (appended db m2).length = (m2.filter (fun kv => !skipped kv)).length ∧
    appended db [("age:ge", Value.int 18), ("name:lk", Value.str "ann")]
      = [Pred.Where "age >= ?" (Value.int 18), Pred.Where "name LIKE ?" (Value.str "%ann%")] ∧
    appended db [("name:lk", Value.str "ann"), ("age:ge", Value.int 18)]
      = [Pred.Where "name LIKE ?" (Value.str "%ann%"), Pred.Where "age >= ?" (Value.int 18)] := by
  refine ⟨?_, ?_, ?_, ?_, ?_, ?_, ?_⟩
  · rw [appended_eq]; exact formatQuery_conds db m1
  · rw [appended_eq]; exact formatQuery_conds db m2
  · simp only [appended_eq]; exact h.flatMap_right entryConds
  · rw [appended_eq]; exact length_flatMap_entryConds m1
  · rw [appended_eq]; exact length_flatMap_entryConds m2
  · rw [appended_eq]; decide
  · rw [appended_eq]; decide

/-- Witness for C4 at the two enumerations of the map with `age:ge` and `name:lk`. -/
theorem formatQuery_order_independent_witness :
    [("age:ge", Value.int 18), ("name:lk", Value.str "ann")].Perm
      [("name:lk", Value.str "ann"), ("age:ge", Value.int 18)] ∧
    (appended DB.blank [("age:ge", Value.int 18), ("name:lk", Value.str "ann")]).Perm
      (appended DB.blank [("name:lk", Value.str "ann"), ("age:ge", Value.int 18)]) :=
  ⟨List.Perm.swap _ _ _,
   (formatQuery_order_independent DB.blank
      [("age:ge", Value.int 18), ("name:lk", Value.str "ann")]
      [("name:lk", Value.str "ann"), ("age:ge", Value.int 18)]
      (List.Perm.swap _ _ _)).2.2.1⟩

/-! ## The filter compiler: keys with several separators -/

/-- C10: a key whose split on ':' has three or more parts (two or more ':') is compiled
as an equality on its first segment: the entry attaches exactly one condition `p = ?`
bound to the value, where `p` is the text of the key before its first ':'; the later
segments are not read and the entry is not skipped. -/
theorem formatQuery_multi_colon (db : DB) (key : String) (v : Value)
    (h : 3 ≤ (Split key ':').length) :
    (Split key ':').length = key.data.count ':' + 1 ∧
    formatQuery db [(key, v)]
      = { db with conds := db.conds ++
            [Pred.Where (String.mk (key.data.takeWhile (fun c => c ≠ ':')) ++ " = ?") v] } ∧
    skipped (key, v) = false := by
  have hhead := splitChars_head ':' key.data
  have hlen : (Split key ':').length = key.data.count ':' + 1 := by
    simp [Split, splitChars_length]
  obtain ⟨f, a, b, rest, hs⟩ : ∃ f a b rest, Split key ':' = f :: a :: b :: rest := by
    match hq : Split key ':', h with
    | f :: a :: b :: rest, _ => exact ⟨f, a, b, rest, rfl⟩
    | [], h => simp at h
    | [_], h => simp at h
    | [_, _], h => simp at h
  have hf : f = String.mk (key.data.takeWhile (fun c => c ≠ ':')) := by
    have h1 : (Split key ':').head? = some f := by simp [hs]
    simp only [Split, List.head?_map, hhead, Option.map_some'] at h1
    exact (Option.some.inj h1).symm
  have he : formatEntry DB.blank key v = DB.blank.Where (f ++ " = ?") v :=
    formatEntry_long DB.blank key f a b rest v hs
  refine ⟨hlen, ?_, ?_⟩
  · rw [formatQuery_single, formatEntry_long db key f a b rest v hs, hf]; rfl
  · simp only [skipped, entryConds, he]
    simp [DB.Where, DB.blank]

/-- Witness for C10 at the key `a:ge:x`. -/
theorem formatQuery_multi_colon_witness :
    3 ≤ (Split "a:ge:x" ':').length ∧
    formatQuery DB.blank [("a:ge:x", Value.int 7)]
      = { DB.blank with conds := DB.blank.conds ++
            [Pred.Where (String.mk ("a:ge:x".data.takeWhile (fun c => c ≠ ':')) ++ " = ?")
              (Value.int 7)] } :=
  ⟨by decide, (formatQuery_multi_colon DB.blank "a:ge:x" (Value.int 7) (by decide)).2.1⟩

/-! ## The pool manager -/

/-- An absent pool is built, open, as a new instance, and an open pool is left as the
same instance, for both roles. -/
theorem initPool_absent_or_open (env : Env) (s : State) :
    (s.mysqlReadPool = none →
      (initReadDbPool env s).mysqlReadPool
        = some (NewResourcePool s.poolsBuilt env.config.poolMinActive
            env.config.poolMaxActive env.config.poolIdleTimeout)) ∧
    (s.mysqlWritePool = none →
      (initWriteDbPool env s).mysqlWritePool
        = some (NewResourcePool s.poolsBuilt env.config.poolMinActive
            env.config.poolMaxActive env.config.poolIdleTimeout)) ∧
    (∀ p, s.mysqlReadPool = some p → p.closed = false → initReadDbPool env s = s) ∧
    (∀ p, s.mysqlWritePool = some p → p.closed = false → initWriteDbPool env s = s) := by
  refine ⟨?_, ?_, ?_, ?_⟩
  · intro h; simp [initReadDbPool, h, isNil]
  · intro h; simp [initWriteDbPool, h, isNil]
  · intro p h hc; simp [initReadDbPool, h, isNil, IsClosed, hc]
  · intro p h hc; simp [initWriteDbPool, h, isNil, IsClosed, hc]

/-- C5, at the failing input: when the pool of a role exists and is closed, the
initialiser passes the outer test, finds the pool not nil under the lock and builds
nothing: the state is unchanged and the pool of the role is still the closed one. This
holds for both roles, whatever the rest of the state and the configuration, and in
particular from the state in which both pools have been closed. -/
theorem initPool_closed_stays_closed (env : Env) (s : State) (p : ResourcePool) :
    initReadDbPool env { s with mysqlReadPool := some { p with closed := true } }
      = { s with mysqlReadPool := some { p with closed := true } } ∧
    IsClosed (initReadDbPool env
      { s with mysqlReadPool := some { p with closed := true } }).mysqlReadPool = true ∧
    initWriteDbPool env { s with mysqlWritePool := some { p with closed := true } }
      = { s with mysqlWritePool := some { p with closed := true } } ∧
    IsClosed (initWriteDbPool env
      { s with mysqlWritePool := some { p with closed := true } }).mysqlWritePool = true ∧
    initReadDbPool staleEnv closedState = closedState ∧
    initWriteDbPool staleEnv closedState = closedState := by
  refine ⟨?_, ?_, ?_, ?_, rfl, rfl⟩ <;>
    simp [initReadDbPool, initWriteDbPool, isNil, IsClosed]

/-! ## The checkout coordinator -/

theorem initReadDbPool_not_nil (env : Env) (s : State) :
    isNil (initReadDbPool env s).mysqlReadPool = false := by
  unfold initReadDbPool
  cases h : s.mysqlReadPool with
  | none => simp [isNil]
  | some p => cases hc : p.closed <;> simp [isNil, IsClosed, h, hc]

theorem initWriteDbPool_not_nil (env : Env) (s : State) :
    isNil (initWriteDbPool env s).mysqlWritePool = false := by
  unfold initWriteDbPool
  cases h : s.mysqlWritePool with
  | none => simp [isNil]
  | some p => cases hc : p.closed <;> simp [isNil, IsClosed, h, hc]

/-- The handle the read factory produces has no stored error. -/
theorem initReadDb_ok_Error (env : Env) (t : State) (db : DB)
    (h : (initReadDb env t).1 = Except.ok db) : db.Error = none := by
  unfold initReadDb at h
  cases hd : env.dial with
  | error e => simp [hd] at h
  | ok c =>
    simp only [hd] at h
    cases hdb : env.config.debug <;> simp [hdb] at h <;> subst h <;>
      simp [DB.opened, DB.SingularTable, DB.LogMode, DB.blank]

/-- The handle the write factory produces has no stored error. -/
theorem initWriteDb_ok_Error (env : Env) (t : State) (db : DB)
    (h : (initWriteDb env t).1 = Except.ok db) : db.Error = none := by
  unfold initWriteDb at h
  cases hd : env.dial with
  | error e => simp [hd] at h
  | ok c =>
    simp only [hd] at h
    cases hdb : env.config.debug <;> simp [hdb] at h <;> subst h <;>
      simp [DB.opened, DB.SingularTable, DB.LogMode, DB.blank]

/-- What the factories return does not depend on the state. -/
theorem initDb_fst_state (env : Env) (t u : State) :
    (initReadDb env t).1 = (initReadDb env u).1 ∧
    (initWriteDb env t).1 = (initWriteDb env u).1 := by
  unfold initReadDb initWriteDb
  cases env.dial <;> simp

/-- The result of `poolGetReadDb` in each case of the borrow. -/
theorem poolGetReadDb_result (env : Env) (s t : State) :
    (poolGetReadDb env s).1 =
      match env.borrow.2, env.borrow.1 with
      | some e, _ => (none, some e)
      | none, none => (none, some "mysql read pool resource is null")
      | none, some orm =>
        match orm.Db.Error with
        | none => (some orm, none)
        | some _ =>
          match (initReadDb env t).1 with
          | Except.ok db => (some { Db := db }, none)
          | Except.error connErr => (none, some connErr) := by
  unfold poolGetReadDb
  simp only [initReadDbPool_not_nil]
  cases h2 : env.borrow.2 with
  | some e => simp
  | none =>
    cases h1 : env.borrow.1 with
    | none => simp
    | some orm =>
      cases he : orm.Db.Error with
      | none => simp [he]
      | some e =>
        simp only [he, Bool.false_eq_true, if_false]
        rw [(initDb_fst_state env t
          (Orm.Close orm env (((initReadDbPool env s).emit
            (Event.Get Role.read (some orm) none)).emit
              (Event.LogError ["mysql read resource connection err: ", e])))).1]
        split <;> rename_i hx <;> simp [hx]

/-- The result of `poolGetWriteDb` in each case of the borrow. -/
theorem poolGetWriteDb_result (env : Env) (s t : State) :
    (poolGetWriteDb env s).1 =
      match env.borrow.2, env.borrow.1 with
      | some e, _ => (none, some e)
      | none, none => (none, some "mysql write pool resource is null")
      | none, some orm =>
        match orm.Db.Error with
        | none => (some orm, none)
        | some _ =>
          match (initWriteDb env t).1 with
          | Except.ok db => (some { Db := db }, none)
          | Except.error connErr => (none, some connErr) := by
  unfold poolGetWriteDb
  simp only [initWriteDbPool_not_nil]
  cases h2 : env.borrow.2 with
  | some e => simp
  | none =>
    cases h1 : env.borrow.1 with
    | none => simp
    | some orm =>
      cases he : orm.Db.Error with
      | none => simp [he]
      | some e =>
        simp only [he, Bool.false_eq_true, if_false]
        rw [(initDb_fst_state env t
          (Orm.Close orm env (((initWriteDbPool env s).emit
            (Event.Get Role.write (some orm) none)).emit
              (Event.LogError ["mysql write resource connection err: ", e])))).2]
        split <;> rename_i hx <;> simp [hx]

/-- C6: for both roles, every state, every outcome of the borrow and of the factory:
a handle returned by checkout has no stored error and comes with a nil error; when the
borrow handed out `orm` whose stored error is nil, checkout returns `orm` itself with a
nil error; when its stored error is set, checkout does not return `orm`: it returns the
handle the factory just opened with a nil error, or, when the factory fails, no handle
and the factory's error. -/
theorem checkout_never_stale (env : Env) (s : State) :
    (∀ r, (poolGetReadDb env s).1.1 = some r →
      r.Db.Error = none ∧ (poolGetReadDb env s).1.2 = none) ∧
    (∀ r, (poolGetWriteDb env s).1.1 = some r →
      r.Db.Error = none ∧ (poolGetWriteDb env s).1.2 = none) ∧
    (∀ orm, env.borrow = (some orm, none) →
      (orm.Db.Error = none →
        (poolGetReadDb env s).1 = (some orm, none) ∧
        (poolGetWriteDb env s).1 = (some orm, none)) ∧
      (orm.Db.Error ≠ none →
        (poolGetReadDb env s).1.1 ≠ some orm ∧
        (poolGetWriteDb env s).1.1 ≠ some orm ∧
        (∀ t, (poolGetReadDb env s).1 =
          match (initReadDb env t).1 with
          | Except.ok db => (some { Db := db }, none)
          | Except.error connErr => (none, some connErr)) ∧
        (∀ t, (poolGetWriteDb env s).1 =
          match (initWriteDb env t).1 with
          | Except.ok db => (some { Db := db }, none)
          | Except.error connErr => (none, some connErr)))) := by
  have hr := poolGetReadDb_result env s s
  have hw := poolGetWriteDb_result env s s
  refine ⟨?_, ?_, ?_⟩
  · intro r h
    rw [hr] at h ⊢
    split at h
    · simp at h
    · simp at h
    · rename_i orm _ _
      split at h
      · rename_i he
        simp at h; subst h; simp [he]
      · split at h
        · rename_i db hdb
          simp at h; subst h
          simp [initReadDb_ok_Error env s db hdb]
        · simp at h
  · intro r h
    rw [hw] at h ⊢
    split at h
    · simp at h
    · simp at h
    · rename_i orm _ _
      split at h
      · rename_i he
        simp at h; subst h; simp [he]
      · split at h
        · rename_i db hdb
          simp at h; subst h
          simp [initWriteDb_ok_Error env s db hdb]
        · simp at h
  · intro orm hb
    have h1 : env.borrow.1 = some orm := by rw [hb]
    have h2 : env.borrow.2 = none := by rw [hb]
    refine ⟨fun he => ?_, fun he => ?_⟩
    · rw [hr, hw]; simp [h1, h2, he]
    · obtain ⟨e, hE⟩ := Option.ne_none_iff_exists'.mp he
      have hrt : ∀ t, (poolGetReadDb env s).1 =
          match (initReadDb env t).1 with
          | Except.ok db => (some { Db := db }, none)
          | Except.error connErr => (none, some connErr) := by
        intro t
        rw [poolGetReadDb_result env s t]; simp [h1, h2, hE]
      have hwt : ∀ t, (poolGetWriteDb env s).1 =
          match (initWriteDb env t).1 with
          | Except.ok db => (some { Db := db }, none)
          | Except.error connErr => (none, some connErr) := by
        intro t
        rw [poolGetWriteDb_result env s t]; simp [h1, h2, hE]
      refine ⟨?_, ?_, hrt, hwt⟩
      · intro hc
        rw [hrt s] at hc
        split at hc
        · rename_i db hdb
          have := initReadDb_ok_Error env s db hdb
          simp at hc
          rw [← hc] at hE
          simp [this] at hE
        · simp at hc
      · intro hc
        rw [hwt s] at hc
        split at hc
        · rename_i db hdb
          have := initWriteDb_ok_Error env s db hdb
          simp at hc
          rw [← hc] at hE
          simp [this] at hE
        · simp at hc

/-- Witness for C6: the pool hands out a stale handle and the factory opens
connection 8; checkout returns a handle on connection 8, not the stale one. -/
theorem checkout_never_stale_witness :
    staleEnv.borrow = (some staleOrm, none) ∧ staleOrm.Db.Error ≠ none ∧
    (poolGetReadDb staleEnv openState).1.1 ≠ some staleOrm ∧
    (poolGetWriteDb staleEnv openState).1.1 ≠ some staleOrm :=
  ⟨rfl, by decide,
   (((checkout_never_stale staleEnv openState).2.2 staleOrm rfl).2 (by decide)).1,
   (((checkout_never_stale staleEnv openState).2.2 staleOrm rfl).2 (by decide)).2.1⟩

/-! ## The calls checkout makes -/

theorem newEvents_append (s t : State) (evs : List Event) (h : t.trace = s.trace ++ evs) :
    newEvents s t = evs := by
  simp [newEvents, h]

/-- The initialisers only extend the trace, and only by pool constructions. -/
theorem initPool_trace (env : Env) (s : State) :
    (∃ evs, (initReadDbPool env s).trace = s.trace ++ evs ∧
      ∀ e ∈ evs, ∃ p, e = Event.NewResourcePool Role.read p) ∧
    (∃ evs, (initWriteDbPool env s).trace = s.trace ++ evs ∧
      ∀ e ∈ evs, ∃ p, e = Event.NewResourcePool Role.write p) := by
  constructor
  · unfold initReadDbPool
    split
    · split
      · exact ⟨_, rfl, by simp⟩
      · exact ⟨[], by simp, by simp⟩
    · exact ⟨[], by simp, by simp⟩
  · unfold initWriteDbPool
    split
    · split
      · exact ⟨_, rfl, by simp⟩
      · exact ⟨[], by simp, by simp⟩
    · exact ⟨[], by simp, by simp⟩

/-- The trace of `poolGetReadDb` when the pool hands out a handle whose stored error
is set. -/
theorem poolGetReadDb_stale_trace (env : Env) (s : State) (orm : Orm) (e : String)
    (hb : env.borrow = (some orm, none)) (he : orm.Db.Error = some e) :
    (poolGetReadDb env s).2.trace =
      (initReadDbPool env s).trace ++
        ([Event.Get Role.read (some orm) none,
          Event.LogError ["mysql read resource connection err: ", e]] ++
         (Event.Close orm.Db.conn ::
          ((match env.closeErr with
            | some err => [Event.LogError ["mysql connection close error: ", err]]
            | none => []) ++
           (Event.Open (address env.config.username env.config.password env.config.slaveHost
              env.config.slavePort env.config.dbname env.config.charset) ::
            (match env.dial with
             | Except.error err =>
               [Event.LogError ["connect mysql error: ", err],
                Event.LogError ["mysql read db reconnection err: ", err]]
             | Except.ok _ => []))))) := by
  have h1 : env.borrow.1 = some orm := by rw [hb]
  have h2 : env.borrow.2 = none := by rw [hb]
  unfold poolGetReadDb
  simp only [initReadDbPool_not_nil, h1, h2, he, Bool.false_eq_true, if_false]
  unfold initReadDb Orm.Close
  cases env.closeErr <;> cases env.dial <;> simp [State.emit]

/-- The trace of `poolGetWriteDb` when the pool hands out a handle whose stored error
is set. -/
theorem poolGetWriteDb_stale_trace (env : Env) (s : State) (orm : Orm) (e : String)
    (hb : env.borrow = (some orm, none)) (he : orm.Db.Error = some e) :
    (poolGetWriteDb env s).2.trace =
      (initWriteDbPool env s).trace ++
        ([Event.Get Role.write (some orm) none,
          Event.LogError ["mysql write resource connection err: ", e]] ++
         (Event.Close orm.Db.conn ::
          ((match env.closeErr with
            | some err => [Event.LogError ["mysql connection close error: ", err]]
            | none => []) ++
           (Event.Open (address env.config.username env.config.password env.config.masterHost
              env.config.masterPort env.config.dbname env.config.charset) ::
            (match env.dial with
             | Except.error err =>
               [Event.LogError ["connect mysql error: ", err],
                Event.LogError ["mysql write db reconnection err: ", err]]
             | Except.ok _ => []))))) := by
  have h1 : env.borrow.1 = some orm := by rw [hb]
  have h2 : env.borrow.2 = none := by rw [hb]
  unfold poolGetWriteDb
  simp only [initWriteDbPool_not_nil, h1, h2, he, Bool.false_eq_true, if_false]
  unfold initWriteDb Orm.Close
  cases env.closeErr <;> cases env.dial <;> simp [State.emit]

/-- C7, counterexample: both pools open, the pool hands out the stale handle on
connection 7 and the factory opens connection 8. The calls checkout makes are the `Get`,
a log line, the `Close` of connection 7 and the `Open`: no `Put`, so over checkout the
count of borrowed slots of the role has gone up by one and not down again. -/
theorem checkout_stale_calls :
    newEvents openState (poolGetReadDb staleEnv openState).2
      = [Event.Get Role.read (some staleOrm) none,
         Event.LogError ["mysql read resource connection err: ", "invalid connection"],
         Event.Close 7,
         Event.Open (address "root" "root" "localhost" 3306 "yiicms" "utf8mb4")] ∧
    releases Role.read (newEvents openState (poolGetReadDb staleEnv openState).2) = 0 ∧
    borrowedDelta Role.read (newEvents openState (poolGetReadDb staleEnv openState).2) = 1 ∧
    newEvents openState (poolGetWriteDb staleEnv openState).2
      = [Event.Get Role.write (some staleOrm) none,
         Event.LogError ["mysql write resource connection err: ", "invalid connection"],
         Event.Close 7,
         Event.Open (address "root" "root" "localhost" 3306 "yiicms" "utf8mb4")] ∧
    releases Role.write (newEvents openState (poolGetWriteDb staleEnv openState).2) = 0 ∧
    borrowedDelta Role.write (newEvents openState (poolGetWriteDb staleEnv openState).2) = 1 := by
  refine ⟨rfl, rfl, rfl, rfl, rfl, rfl⟩

theorem counts_of_constructions (role r : Role) (evs : List Event)
    (h : ∀ e ∈ evs, ∃ p, e = Event.NewResourcePool r p) :
    borrows role evs = 0 ∧ releases role evs = 0 ∧ ∀ a, Event.Open a ∉ evs := by
  refine ⟨?_, ?_, ?_⟩
  · rw [borrows, List.countP_eq_zero]
    intro a ha
    obtain ⟨p, rfl⟩ := h a ha
    simp [Event.isBorrow]
  · rw [releases, List.countP_eq_zero]
    intro a ha
    obtain ⟨p, rfl⟩ := h a ha
    simp [Event.isRelease]
  · intro a ha
    obtain ⟨p, hp⟩ := h _ ha
    cases hp

/-- C7, amended: for both roles, when the pool hands out a handle whose stored error is
set, checkout closes that handle's connection and after that calls the factory's `Open`;
it makes no `Put` on the pool, so over checkout the count of borrowed slots of the role
is one up. -/
theorem checkout_stale_closes_then_opens (env : Env) (s : State) (orm : Orm) (e : String)
    (hb : env.borrow = (some orm, none)) (he : orm.Db.Error = some e) :
    releases Role.read (newEvents s (poolGetReadDb env s).2) = 0 ∧
    borrowedDelta Role.read (newEvents s (poolGetReadDb env s).2) = 1 ∧
    (∃ pre post, newEvents s (poolGetReadDb env s).2 = pre ++ Event.Close orm.Db.conn :: post ∧
      (∀ a, Event.Open a ∉ pre) ∧
      Event.Open (address env.config.username env.config.password env.config.slaveHost
        env.config.slavePort env.config.dbname env.config.charset) ∈ post) ∧
    releases Role.write (newEvents s (poolGetWriteDb env s).2) = 0 ∧
    borrowedDelta Role.write (newEvents s (poolGetWriteDb env s).2) = 1 ∧
    (∃ pre post, newEvents s (poolGetWriteDb env s).2 = pre ++ Event.Close orm.Db.conn :: post ∧
      (∀ a, Event.Open a ∉ pre) ∧
      Event.Open (address env.config.username env.config.password env.config.masterHost
        env.config.masterPort env.config.dbname env.config.charset) ∈ post) := by
  obtain ⟨⟨ir, hir, har⟩, ⟨iw, hiw, haw⟩⟩ := initPool_trace env s
  obtain ⟨br, rr, nr⟩ := counts_of_constructions Role.read Role.read ir har
  obtain ⟨bw, rw', nw⟩ := counts_of_constructions Role.write Role.write iw haw
  have tr := poolGetReadDb_stale_trace env s orm e hb he
  have tw := poolGetWriteDb_stale_trace env s orm e hb he
  rw [hir, List.append_assoc] at tr
  rw [hiw, List.append_assoc] at tw
  rw [newEvents_append _ _ _ tr, newEvents_append _ _ _ tw]
  simp only [borrows, releases] at br rr bw rw'
  refine ⟨?_, ?_, ?_, ?_, ?_, ?_⟩
  · cases env.closeErr <;> cases env.dial <;>
      simp [releases, List.countP_append, List.countP_cons, rr, Event.isRelease]
  · cases env.closeErr <;> cases env.dial <;>
      simp [borrowedDelta, borrows, releases, List.countP_append, List.countP_cons, rr, br,
        Event.isRelease, Event.isBorrow]
  · refine ⟨ir ++ [Event.Get Role.read (some orm) none,
      Event.LogError ["mysql read resource connection err: ", e]],
      (match env.closeErr with
        | some err => [Event.LogError ["mysql connection close error: ", err]]
        | none => []) ++
       (Event.Open (address env.config.username env.config.password env.config.slaveHost
          env.config.slavePort env.config.dbname env.config.charset) ::
        (match env.dial with
         | Except.error err =>
           [Event.LogError ["connect mysql error: ", err],
            Event.LogError ["mysql read db reconnection err: ", err]]
         | Except.ok _ => [])), ?_, ?_, ?_⟩
    · simp only [List.append_assoc]
    · intro a ha
      rcases List.mem_append.mp ha with h | h
      · exact nr a h
      · simp at h
    · cases env.closeErr <;> simp
  · cases env.closeErr <;> cases env.dial <;>
      simp [releases, List.countP_append, List.countP_cons, rw', Event.isRelease]
  · cases env.closeErr <;> cases env.dial <;>
      simp [borrowedDelta, borrows, releases, List.countP_append, List.countP_cons, rw', bw,
        Event.isRelease, Event.isBorrow]
  · refine ⟨iw ++ [Event.Get Role.write (some orm) none,
      Event.LogError ["mysql write resource connection err: ", e]],
      (match env.closeErr with
        | some err => [Event.LogError ["mysql connection close error: ", err]]
        | none => []) ++
       (Event.Open (address env.config.username env.config.password env.config.masterHost
          env.config.masterPort env.config.dbname env.config.charset) ::
        (match env.dial with
         | Except.error err =>
           [Event.LogError ["connect mysql error: ", err],
            Event.LogError ["mysql write db reconnection err: ", err]]
         | Except.ok _ => [])), ?_, ?_, ?_⟩
    · simp only [List.append_assoc]
    · intro a ha
      rcases List.mem_append.mp ha with h | h
      · exact nw a h
      · simp at h
    · cases env.closeErr <;> simp

/-- Witness for C7 (amended) at the stale handle on connection 7 with both pools open. -/
theorem checkout_stale_closes_then_opens_witness :
    staleEnv.borrow = (some staleOrm, none) ∧
    staleOrm.Db.Error = some "invalid connection" ∧
    releases Role.read (newEvents openState (poolGetReadDb staleEnv openState).2) = 0 ∧
    borrowedDelta Role.read (newEvents openState (poolGetReadDb staleEnv openState).2) = 1 :=
  ⟨rfl, rfl,
   (checkout_stale_closes_then_opens staleEnv openState staleOrm "invalid connection"
      rfl rfl).1,
   (checkout_stale_closes_then_opens staleEnv openState staleOrm "invalid connection"
      rfl rfl).2.1⟩

/-! ## CRUD operations: borrows and releases -/

/-- Checkout when the pool's `Get` fails with the error `e`. -/
theorem poolGet_failed (env : Env) (s : State) (r : Option Orm) (e : String)
    (hb : env.borrow = (r, some e)) :
    poolGetReadDb env s =
      ((none, some e),
        ((initReadDbPool env s).emit (Event.Get Role.read r (some e))).emit
          (Event.LogError ["mysql get read db error: ", e])) ∧
    poolGetWriteDb env s =
      ((none, some e),
        ((initWriteDbPool env s).emit (Event.Get Role.write r (some e))).emit
          (Event.LogError ["mysql get write db error: ", e])) := by
  have h1 : env.borrow.1 = r := by rw [hb]
  have h2 : env.borrow.2 = some e := by rw [hb]
  constructor
  · unfold poolGetReadDb
    simp [initReadDbPool_not_nil, h1, h2]
  · unfold poolGetWriteDb
    simp [initWriteDbPool_not_nil, h1, h2]

/-- The operations when the pool's `Get` fails: the error is returned and the deferred
`Put` of the nil resource is the last call. -/
theorem crud_failed_get (m : MysqlBase) (query : Query) (fields : List (List String))
    (env : Env) (s : State) (r : Option Orm) (e : String) (hb : env.borrow = (r, some e)) :
    m.Insert env s =
      (some e,
        (((initWriteDbPool env s).emit (Event.Get Role.write r (some e))).emit
          (Event.LogError ["mysql get write db error: ", e])).emit
            (Event.Put Role.write none)) ∧
    m.FindOne query fields env s =
      (some e,
        (((initReadDbPool env s).emit (Event.Get Role.read r (some e))).emit
          (Event.LogError ["mysql get read db error: ", e])).emit
            (Event.Put Role.read none)) := by
  obtain ⟨hr, hw⟩ := poolGet_failed env s r e hb
  constructor
  · unfold MysqlBase.Insert
    rw [hw]
    simp [Put, State.emit, initWriteDbPool_not_nil]
  · unfold MysqlBase.FindOne
    rw [hr]
    simp [Put, State.emit, initReadDbPool_not_nil]

/-- C8, at the failing input: when the pool's `Get` fails (here with any error `e`, from
any state and configuration), `Insert` and `FindOne` return that error and still run the
deferred `Put`: one release on the role's pool against no successful borrow, so the
count of borrowed slots ends one below where it started. With both pools open and the
database refusing connections, the calls of `Insert` are the failed `Get`, a log line
and `Put(nil)`. -/
theorem crud_put_without_borrow (m : MysqlBase) (query : Query)
    (fields : List (List String)) (env : Env) (s : State) (e : String) :
    borrows Role.write
      (newEvents s (m.Insert { env with borrow := (none, some e) } s).2) = 0 ∧
    releases Role.write
      (newEvents s (m.Insert { env with borrow := (none, some e) } s).2) = 1 ∧
    borrowedDelta Role.write
      (newEvents s (m.Insert { env with borrow := (none, some e) } s).2) = -1 ∧
    borrows Role.read
      (newEvents s (m.FindOne query fields { env with borrow := (none, some e) } s).2) = 0 ∧
    releases Role.read
      (newEvents s (m.FindOne query fields { env with borrow := (none, some e) } s).2) = 1 ∧
    borrowedDelta Role.read
      (newEvents s (m.FindOne query fields { env with borrow := (none, some e) } s).2) = -1 ∧
    newEvents openState (MysqlBase.Insert { TableName := "user" } failedGetEnv openState).2
      = [Event.Get Role.write none (some "dial tcp 127.0.0.1:3306: connection refused"),
         Event.LogError ["mysql get write db error: ",
           "dial tcp 127.0.0.1:3306: connection refused"],
         Event.Put Role.write none] := by
  obtain ⟨hi, hf⟩ := crud_failed_get m query fields { env with borrow := (none, some e) } s
    none e rfl
  obtain ⟨⟨ir, hir, har⟩, ⟨iw, hiw, haw⟩⟩ :=
    initPool_trace { env with borrow := (none, some e) } s
  obtain ⟨br, rr, _⟩ := counts_of_constructions Role.read Role.read ir har
  obtain ⟨bw, rw', _⟩ := counts_of_constructions Role.write Role.write iw haw
  simp only [borrows, releases] at br rr bw rw'
  have ti : (m.Insert { env with borrow := (none, some e) } s).2.trace
      = s.trace ++ (iw ++ [Event.Get Role.write none (some e),
          Event.LogError ["mysql get write db error: ", e], Event.Put Role.write none]) := by
    rw [hi]; simp [State.emit, hiw]
  have tf : (m.FindOne query fields { env with borrow := (none, some e) } s).2.trace
      = s.trace ++ (ir ++ [Event.Get Role.read none (some e),
          Event.LogError ["mysql get read db error: ", e], Event.Put Role.read none]) := by
    rw [hf]; simp [State.emit, hir]
  rw [newEvents_append _ _ _ ti, newEvents_append _ _ _ tf]
  refine ⟨?_, ?_, ?_, ?_, ?_, ?_, rfl⟩ <;>
    simp [borrowedDelta, borrows, releases, List.countP_append, List.countP_cons, br, rr, bw,
      rw', Event.isBorrow, Event.isRelease]

theorem emit_pools (s : State) (e : Event) :
    (s.emit e).mysqlReadPool = s.mysqlReadPool ∧
    (s.emit e).mysqlWritePool = s.mysqlWritePool := by
  simp [State.emit]

theorem initDb_pools (env : Env) (s : State) :
    (initReadDb env s).2.mysqlReadPool = s.mysqlReadPool ∧
    (initWriteDb env s).2.mysqlWritePool = s.mysqlWritePool := by
  unfold initReadDb initWriteDb
  cases env.dial <;> simp [State.emit]

theorem close_pools (o : Orm) (env : Env) (s : State) :
    (o.Close env s).mysqlReadPool = s.mysqlReadPool ∧
    (o.Close env s).mysqlWritePool = s.mysqlWritePool := by
  unfold Orm.Close
  cases env.closeErr <;> simp [State.emit]

/-- After checkout the pool of the role is not nil. -/
theorem poolGet_pool_not_nil (env : Env) (s : State) :
    isNil (poolGetReadDb env s).2.mysqlReadPool = false ∧
    isNil (poolGetWriteDb env s).2.mysqlWritePool = false := by
  constructor
  · have h0 := initReadDbPool_not_nil env s
    unfold poolGetReadDb
    simp only [h0, Bool.false_eq_true, if_false]
    split
    · simpa [State.emit] using h0
    · split
      · simpa [State.emit] using h0
      · split
        · split
          · rename_i heq
            have h1 := congrArg (fun x => x.2.mysqlReadPool) heq
            simp only [(initDb_pools env _).1, (close_pools _ env _).1,
              (emit_pools _ _).1] at h1
            simp [State.emit, ← h1, h0]
          · rename_i heq
            have h1 := congrArg (fun x => x.2.mysqlReadPool) heq
            simp only [(initDb_pools env _).1, (close_pools _ env _).1,
              (emit_pools _ _).1] at h1
            simp [State.emit, ← h1, h0]
        · simpa [State.emit] using h0
  · have h0 := initWriteDbPool_not_nil env s
    unfold poolGetWriteDb
    simp only [h0, Bool.false_eq_true, if_false]
    split
    · simpa [State.emit] using h0
    · split
      · simpa [State.emit] using h0
      · split
        · split
          · rename_i heq
            have h1 := congrArg (fun x => x.2.mysqlWritePool) heq
            simp only [(initDb_pools env _).2, (close_pools _ env _).2,
              (emit_pools _ _).2] at h1
            simp [State.emit, ← h1, h0]
          · rename_i heq
            have h1 := congrArg (fun x => x.2.mysqlWritePool) heq
            simp only [(initDb_pools env _).2, (close_pools _ env _).2,
              (emit_pools _ _).2] at h1
            simp [State.emit, ← h1, h0]
        · simpa [State.emit] using h0

/-- After checkout, `Insert` makes no call on the pool except the deferred `Put` of the
resource checkout returned, which is its last call. -/
theorem Insert_trace (m : MysqlBase) (env : Env) (s : State) :
    ∃ mid, (m.Insert env s).2.trace
        = (poolGetWriteDb env s).2.trace ++ mid ++
            [Event.Put Role.write (poolGetWriteDb env s).1.1] ∧
      ∀ ev ∈ mid, ∀ role, Event.isBorrow role ev = false ∧ Event.isRelease role ev = false := by
  have hn := (poolGet_pool_not_nil env s).2
  unfold MysqlBase.Insert
  rcases h : poolGetWriteDb env s with ⟨⟨r, err⟩, t⟩
  rw [h] at hn
  simp only at hn
  cases err with
  | some e => exact ⟨[], by simp [Put, hn, State.emit], by simp⟩
  | none =>
    cases r with
    | none =>
      exact ⟨[Event.Panic "interface conversion: nil"], by simp [Put, hn, State.emit],
        by simp [Event.isBorrow, Event.isRelease]⟩
    | some orm =>
      simp only
      split
      · exact ⟨[Event.LogError ["init db error: tablename empty"]],
          by simp [Put, hn, State.emit], by simp [Event.isBorrow, Event.isRelease]⟩
      · cases hx : env.execErr with
        | some ie =>
          exact ⟨[Event.Exec "Create" (orm.Db.Table (tableOf env m)),
              Event.LogError ["mysql table " ++ m.TableName ++ " insert error: " ++ ie]],
            by simp [Put, hn, State.emit], by simp [Event.isBorrow, Event.isRelease]⟩
        | none =>
          exact ⟨[Event.Exec "Create" (orm.Db.Table (tableOf env m))],
            by simp [Put, hn, State.emit], by simp [Event.isBorrow, Event.isRelease]⟩

/-- After checkout, `FindOne` makes no call on the pool except the deferred `Put` of the
resource checkout returned, which is its last call. -/
theorem FindOne_trace (m : MysqlBase) (query : Query) (fields : List (List String))
    (env : Env) (s : State) :
    ∃ mid, (m.FindOne query fields env s).2.trace
        = (poolGetReadDb env s).2.trace ++ mid ++
            [Event.Put Role.read (poolGetReadDb env s).1.1] ∧
      ∀ ev ∈ mid, ∀ role, Event.isBorrow role ev = false ∧ Event.isRelease role ev = false := by
  have hn := (poolGet_pool_not_nil env s).1
  unfold MysqlBase.FindOne
  rcases h : poolGetReadDb env s with ⟨⟨r, err⟩, t⟩
  rw [h] at hn
  simp only at hn
  cases err with
  | some e => exact ⟨[], by simp [Put, hn, State.emit], by simp⟩
  | none =>
    cases r with
    | none =>
      exact ⟨[Event.Panic "interface conversion: nil"], by simp [Put, hn, State.emit],
        by simp [Event.isBorrow, Event.isRelease]⟩
    | some orm =>
      simp only
      split
      · exact ⟨[Event.LogError ["init db error: tablename empty"]],
          by simp [Put, hn, State.emit], by simp [Event.isBorrow, Event.isRelease]⟩
      · cases hx : env.execErr with
        | some fe =>
          simp only
          split
          · exact ⟨[Event.Exec "First" (formatQuery
                (match fields with
                 | first :: _ => (orm.Db.Table (tableOf env m)).Select first
                 | [] => orm.Db.Table (tableOf env m)) query),
                Event.LogError ["mysql table " ++ m.TableName ++ " findone error: " ++ fe]],
              by simp [Put, hn, State.emit], by simp [Event.isBorrow, Event.isRelease]⟩
          · exact ⟨[Event.Exec "First" (formatQuery
                (match fields with
                 | first :: _ => (orm.Db.Table (tableOf env m)).Select first
                 | [] => orm.Db.Table (tableOf env m)) query)],
              by simp [Put, hn, State.emit], by simp [Event.isBorrow, Event.isRelease]⟩
        | none =>
          exact ⟨[Event.Exec "First" (formatQuery
                (match fields with
                 | first :: _ => (orm.Db.Table (tableOf env m)).Select first
                 | [] => orm.Db.Table (tableOf env m)) query)],
            by simp [Put, hn, State.emit], by simp [Event.isBorrow, Event.isRelease]⟩

/-- Over checkout with a successful borrow there is one borrow and no release on the
pool of the role, whether the handle is healthy or stale. -/
theorem poolGet_counts_after_borrow (env : Env) (s : State) (orm : Orm)
    (hb : env.borrow = (some orm, none)) :
    (∃ evs, (poolGetReadDb env s).2.trace = s.trace ++ evs ∧
      borrows Role.read evs = 1 ∧ releases Role.read evs = 0) ∧
    (∃ evs, (poolGetWriteDb env s).2.trace = s.trace ++ evs ∧
      borrows Role.write evs = 1 ∧ releases Role.write evs = 0) := by
  obtain ⟨⟨ir, hir, har⟩, ⟨iw, hiw, haw⟩⟩ := initPool_trace env s
  obtain ⟨br, rr, _⟩ := counts_of_constructions Role.read Role.read ir har
  obtain ⟨bw, rw', _⟩ := counts_of_constructions Role.write Role.write iw haw
  simp only [borrows, releases] at br rr bw rw'
  have h1 : env.borrow.1 = some orm := by rw [hb]
  have h2 : env.borrow.2 = none := by rw [hb]
  cases he : orm.Db.Error with
  | none =>
    constructor
    · refine ⟨ir ++ [Event.Get Role.read (some orm) none], ?_, ?_, ?_⟩
      · unfold poolGetReadDb
        simp [initReadDbPool_not_nil, h1, h2, he, State.emit, hir]
      · simp [borrows, List.countP_append, List.countP_cons, br, Event.isBorrow]
      · simp [releases, List.countP_append, List.countP_cons, rr, Event.isRelease]
    · refine ⟨iw ++ [Event.Get Role.write (some orm) none], ?_, ?_, ?_⟩
      · unfold poolGetWriteDb
        simp [initWriteDbPool_not_nil, h1, h2, he, State.emit, hiw]
      · simp [borrows, List.countP_append, List.countP_cons, bw, Event.isBorrow]
      · simp [releases, List.countP_append, List.countP_cons, rw', Event.isRelease]
  | some e =>
    have tr := poolGetReadDb_stale_trace env s orm e hb he
    have tw := poolGetWriteDb_stale_trace env s orm e hb he
    rw [hir, List.append_assoc] at tr
    rw [hiw, List.append_assoc] at tw
    constructor
    · refine ⟨_, tr, ?_, ?_⟩
      · cases env.closeErr <;> cases env.dial <;>
          simp [borrows, List.countP_append, List.countP_cons, br, Event.isBorrow]
      · cases env.closeErr <;> cases env.dial <;>
          simp [releases, List.countP_append, List.countP_cons, rr, Event.isRelease]
    · refine ⟨_, tw, ?_, ?_⟩
      · cases env.closeErr <;> cases env.dial <;>
          simp [borrows, List.countP_append, List.countP_cons, bw, Event.isBorrow]
      · cases env.closeErr <;> cases env.dial <;>
          simp [releases, List.countP_append, List.countP_cons, rw', Event.isRelease]

/-- When the pool's `Get` hands out a handle, `Insert` and `FindOne` make one borrow and
one release on the role's pool on every way out (replacement failed, empty table name,
execution error, success): the count of borrowed slots ends where it started. -/
theorem crud_balanced_after_borrow (m : MysqlBase) (query : Query)
    (fields : List (List String)) (env : Env) (s : State) (orm : Orm)
    (hb : env.borrow = (some orm, none)) :
    borrows Role.write (newEvents s (m.Insert env s).2) = 1 ∧
    releases Role.write (newEvents s (m.Insert env s).2) = 1 ∧
    borrows Role.read (newEvents s (m.FindOne query fields env s).2) = 1 ∧
    releases Role.read (newEvents s (m.FindOne query fields env s).2) = 1 := by
  obtain ⟨⟨er, hr, bR, rR⟩, ⟨ew, hw, bW, rW⟩⟩ := poolGet_counts_after_borrow env s orm hb
  obtain ⟨mi, hi, hmi⟩ := Insert_trace m env s
  obtain ⟨mf, hf, hmf⟩ := FindOne_trace m query fields env s
  rw [hw, List.append_assoc, List.append_assoc] at hi
  rw [hr, List.append_assoc, List.append_assoc] at hf
  rw [newEvents_append _ _ _ hi, newEvents_append _ _ _ hf]
  have zi : ∀ role, List.countP (Event.isBorrow role) mi = 0 ∧
      List.countP (Event.isRelease role) mi = 0 := by
    intro role
    constructor <;> rw [List.countP_eq_zero] <;> intro a ha
    · simp [(hmi a ha role).1]
    · simp [(hmi a ha role).2]
  have zf : ∀ role, List.countP (Event.isBorrow role) mf = 0 ∧
      List.countP (Event.isRelease role) mf = 0 := by
    intro role
    constructor <;> rw [List.countP_eq_zero] <;> intro a ha
    · simp [(hmf a ha role).1]
    · simp [(hmf a ha role).2]
  simp only [borrows, releases] at bR rR bW rW
  refine ⟨?_, ?_, ?_, ?_⟩
  · simp [borrows, List.countP_append, List.countP_cons, bW, (zi Role.write).1, Event.isBorrow]
  · simp [releases, List.countP_append, List.countP_cons, rW, (zi Role.write).2,
      Event.isRelease]
  · simp [borrows, List.countP_append, List.countP_cons, bR, (zf Role.read).1, Event.isBorrow]
  · simp [releases, List.countP_append, List.countP_cons, rR, (zf Role.read).2,
      Event.isRelease]

/-! ## Concurrent callers of the pool initialisers -/

theorem setPc_pc (c : Conc) (i j : Nat) (p : PC) :
    (c.setPc i p).pc j = if j = i then p else c.pc j := rfl

/-- On an absent pool the initialiser is the construction, and its result has an open
pool. -/
theorem initPoolOf_absent (role : Role) (env : Env) (s : State) (h : poolOf role s = none) :
    initPoolOf role env s = construct role env s ∧
    isNil (poolOf role s) = true ∧
    isNil (poolOf role (initPoolOf role env s)) = false ∧
    IsClosed (poolOf role (initPoolOf role env s)) = false ∧
    newEvents s (initPoolOf role env s)
      = [Event.NewResourcePool role (NewResourcePool s.poolsBuilt env.config.poolMinActive
          env.config.poolMaxActive env.config.poolIdleTimeout)] := by
  cases role <;> simp only [poolOf] at h <;>
    simp [initPoolOf, construct, initReadDbPool, initWriteDbPool, poolOf, h, isNil, IsClosed,
      NewResourcePool, newEvents]

theorem concInv_start (role : Role) (env : Env) (s0 : State) :
    ConcInv role env s0 (startConc s0) := by
  refine ⟨Or.inl rfl, ?_, ?_, ?_⟩ <;> simp [startConc]

theorem concInv_step (role : Role) (env : Env) (s0 : State) (h0 : poolOf role s0 = none)
    (c : Conc) (i : Nat) (stale : Bool) (hc : ConcInv role env s0 c) :
    ConcInv role env s0 (stepInit role env c i stale) := by
  obtain ⟨hsh, hhold, hmux, hdone⟩ := hc
  obtain ⟨hcon, hnil0, hnil1, hcl1, _⟩ := initPoolOf_absent role env s0 h0
  unfold stepInit
  cases hpc : c.pc i with
  | outer =>
    simp only
    split
    · refine ⟨hsh, ?_, ?_, ?_⟩
      · intro j hj
        simp only [setPc_pc] at hj
        by_cases hji : j = i
        · simp [hji] at hj
        · simp only [hji, if_false] at hj
          exact hhold j hj
      · intro h hh
        have := hmux h hh
        simp only [setPc_pc]
        by_cases hhi : h = i
        · subst hhi; rw [hpc] at this; simp at this
        · simpa [hhi] using this
      · intro j hj
        simp only [setPc_pc] at hj
        by_cases hji : j = i
        · simp [hji] at hj
        · simp only [hji, if_false] at hj
          exact hdone j hj
    · rename_i hg
      simp only [Bool.or_eq_true, not_or, Bool.not_eq_true] at hg
      have hinit : c.shared = initPoolOf role env s0 := by
        rcases hsh with h | h
        · rw [h, hnil0] at hg; simp at hg
        · exact h
      refine ⟨hsh, ?_, ?_, ?_⟩
      · intro j hj
        simp only [setPc_pc] at hj
        by_cases hji : j = i
        · simp [hji] at hj
        · simp only [hji, if_false] at hj
          exact hhold j hj
      · intro h hh
        have := hmux h hh
        simp only [setPc_pc]
        by_cases hhi : h = i
        · subst hhi; rw [hpc] at this; simp at this
        · simpa [hhi] using this
      · intro j _
        exact hinit
  | lock =>
    simp only
    cases hm : c.mux with
    | some h => exact ⟨hsh, hhold, hmux, hdone⟩
    | none =>
      refine ⟨hsh, ?_, ?_, ?_⟩
      · intro j hj
        simp only [setPc_pc] at hj
        by_cases hji : j = i
        · simp [hji]
        · simp only [hji, if_false] at hj
          have := hhold j hj
          rw [hm] at this; simp at this
      · intro h hh
        simp only [Option.some.injEq] at hh
        subst hh
        simp [setPc_pc]
      · intro j hj
        simp only [setPc_pc] at hj
        by_cases hji : j = i
        · simp [hji] at hj
        · simp only [hji, if_false] at hj
          exact hdone j hj
  | inner =>
    have hmi : c.mux = some i := hhold i (Or.inl hpc)
    have huniq : ∀ j, c.pc j = PC.inner ∨ c.pc j = PC.unlock → j = i := by
      intro j hj
      have := hhold j hj
      rw [hmi] at this
      exact (Option.some.inj this).symm
    simp only
    split
    · rename_i hg
      have hs0 : c.shared = s0 := by
        rcases hsh with h | h
        · exact h
        · rw [h, hnil1] at hg; simp at hg
      have hnew : construct role env c.shared = initPoolOf role env s0 := by
        rw [hs0, hcon]
      refine ⟨Or.inr hnew, ?_, ?_, ?_⟩
      · intro j hj
        simp only [setPc_pc] at hj
        by_cases hji : j = i
        · simpa [hji] using hmi
        · simp only [hji, if_false] at hj
          exact absurd (huniq j hj) hji
      · intro h hh
        have hh' : c.mux = some h := hh
        rw [hmi] at hh'
        have : h = i := (Option.some.inj hh').symm
        subst this
        simp [setPc_pc]
      · intro j _
        exact hnew
    · rename_i hg
      have hinit : c.shared = initPoolOf role env s0 := by
        rcases hsh with h | h
        · rw [h, hnil0] at hg; simp at hg
        · exact h
      refine ⟨hsh, ?_, ?_, ?_⟩
      · intro j hj
        simp only [setPc_pc] at hj
        by_cases hji : j = i
        · simpa [hji] using hmi
        · simp only [hji, if_false] at hj
          exact absurd (huniq j hj) hji
      · intro h hh
        have hh' : c.mux = some h := hh
        rw [hmi] at hh'
        have : h = i := (Option.some.inj hh').symm
        subst this
        simp [setPc_pc]
      · intro j _
        exact hinit
  | unlock =>
    have hmi : c.mux = some i := hhold i (Or.inr hpc)
    have huniq : ∀ j, c.pc j = PC.inner ∨ c.pc j = PC.unlock → j = i := by
      intro j hj
      have := hhold j hj
      rw [hmi] at this
      exact (Option.some.inj this).symm
    have hinit : c.shared = initPoolOf role env s0 := hdone i (Or.inl hpc)
    refine ⟨hsh, ?_, ?_, ?_⟩
    · intro j hj
      simp only [setPc_pc] at hj
      by_cases hji : j = i
      · simp [hji] at hj
      · simp only [hji, if_false] at hj
        exact absurd (huniq j hj) hji
    · intro h hh
      simp at hh
    · intro j _
      exact hinit
  | done => exact ⟨hsh, hhold, hmux, hdone⟩

theorem concInv_run (role : Role) (env : Env) (s0 : State) (h0 : poolOf role s0 = none)
    (sched : Schedule) (c : Conc) (hc : ConcInv role env s0 c) :
    ConcInv role env s0 (runInit role env sched c) := by
  induction sched generalizing c with
  | nil => exact hc
  | cons x rest ih =>
    exact ih (stepInit role env c x.1 x.2) (concInv_step role env s0 h0 c x.1 x.2 hc)

theorem runInit_append (role : Role) (env : Env) (a b : Schedule) (c : Conc) :
    runInit role env (a ++ b) c = runInit role env b (runInit role env a c) := by
  simp [runInit, List.foldl_append]

/-- A step of caller `i` leaves the other callers where they stand. -/
theorem stepInit_other (role : Role) (env : Env) (c : Conc) (i j : Nat) (stale : Bool)
    (h : j ≠ i) : (stepInit role env c i stale).pc j = c.pc j := by
  unfold stepInit
  cases c.pc i <;> simp only
  · split <;> simp [Conc.setPc, h]
  · split <;> simp [Conc.setPc, h]
  · split <;> simp [Conc.setPc, h]
  · simp [Conc.setPc, h]

/-- A caller that has returned stays returned. -/
theorem stepInit_done (role : Role) (env : Env) (c : Conc) (i j : Nat) (stale : Bool)
    (h : c.pc j = PC.done) : (stepInit role env c i stale).pc j = PC.done := by
  by_cases hji : j = i
  · subst hji
    unfold stepInit
    simp [h]
  · rw [stepInit_other role env c i j stale hji, h]

theorem runInit_done (role : Role) (env : Env) (sched : Schedule) (c : Conc) (j : Nat)
    (h : c.pc j = PC.done) : (runInit role env sched c).pc j = PC.done := by
  induction sched generalizing c with
  | nil => exact h
  | cons x rest ih => exact ih _ (stepInit_done role env c x.1 j x.2 h)

/-- A step of the caller that is placed is never blocked: it brings the caller one step
nearer to its return, and the caller is placed again. -/
theorem stepInit_placed (role : Role) (env : Env) (c : Conc) (i : Nat) (h : placed c i) :
    placed (stepInit role env c i false) i ∧
    remaining ((stepInit role env c i false).pc i) ≤ remaining (c.pc i) - 1 := by
  unfold placed at h
  unfold stepInit placed
  cases hpc : c.pc i with
  | outer =>
    simp only [hpc] at h
    simp only
    split <;> simp [Conc.setPc, remaining] <;> simpa using h
  | lock =>
    simp only [hpc] at h
    have hm : c.mux = none := by simpa using h
    simp [hm, Conc.setPc, remaining]
  | inner =>
    simp only [hpc] at h
    have hm : c.mux = some i := by simpa using h
    simp only
    split <;> simp [Conc.setPc, remaining, hm]
  | unlock =>
    simp [Conc.setPc, remaining]
  | done =>
    simp only [hpc] at h
    have hm : c.mux = none := by simpa using h
    simp [hpc, hm, remaining]

/-- Letting a placed caller make `n` steps in a row. -/
theorem runInit_alone (role : Role) (env : Env) (i n : Nat) (c : Conc) (h : placed c i) :
    placed (runInit role env (List.replicate n (i, false)) c) i ∧
    remaining ((runInit role env (List.replicate n (i, false)) c).pc i)
      ≤ remaining (c.pc i) - n := by
  induction n generalizing c with
  | zero => exact ⟨h, by simp [runInit]⟩
  | succ n ih =>
    obtain ⟨h1, r1⟩ := stepInit_placed role env c i h
    obtain ⟨h2, r2⟩ := ih (stepInit role env c i false) h1
    have : runInit role env (List.replicate (n + 1) (i, false)) c
        = runInit role env (List.replicate n (i, false)) (stepInit role env c i false) := by
      simp [runInit, List.replicate_succ]
    rw [this]
    exact ⟨h2, by omega⟩

/-- A placed caller has returned after four steps of its own, and the mutex is free. -/
theorem runInit_alone_done (role : Role) (env : Env) (i n : Nat) (c : Conc) (h : placed c i)
    (hn : remaining (c.pc i) ≤ n) :
    (runInit role env (List.replicate n (i, false)) c).pc i = PC.done ∧
    (runInit role env (List.replicate n (i, false)) c).mux = none := by
  obtain ⟨hp, hr⟩ := runInit_alone role env i n c h
  have h0 : remaining ((runInit role env (List.replicate n (i, false)) c).pc i) = 0 := by
    omega
  have hd : (runInit role env (List.replicate n (i, false)) c).pc i = PC.done := by
    cases hx : (runInit role env (List.replicate n (i, false)) c).pc i <;>
      simp [hx, remaining] at h0
    rfl
  refine ⟨hd, ?_⟩
  unfold placed at hp
  simpa [hd] using hp

theorem remaining_le (p : PC) : remaining p ≤ 4 := by
  cases p <;> simp [remaining]

/-- From a state of the invariant with the mutex free, any given callers can be
scheduled so that all of them have returned. -/
theorem complete_from (role : Role) (env : Env) (s0 : State) (h0 : poolOf role s0 = none)
    (callers : List Nat) (c : Conc) (hinv : ConcInv role env s0 c) (hm : c.mux = none) :
    ∃ more : Schedule, (runInit role env more c).mux = none ∧
      ∀ i ∈ callers, (runInit role env more c).pc i = PC.done := by
  induction callers generalizing c with
  | nil => exact ⟨[], hm, by simp⟩
  | cons i rest ih =>
    have hp : placed c i := by
      unfold placed
      split
      · rename_i hh
        have := hinv.2.1 i hh
        rw [hm] at this; simp at this
      · exact hm
    obtain ⟨hd, hm1⟩ := runInit_alone_done role env i 4 c hp (remaining_le _)
    have hinv1 := concInv_run role env s0 h0 (List.replicate 4 (i, false)) c hinv
    obtain ⟨more, hm2, hall⟩ := ih _ hinv1 hm1
    refine ⟨List.replicate 4 (i, false) ++ more, ?_, ?_⟩
    · rw [runInit_append]; exact hm2
    · intro j hj
      rw [runInit_append]
      rcases List.mem_cons.mp hj with h | h
      · subst h
        exact runInit_done role env more _ _ hd
      · exact hall j h

theorem constructions_of_inv (role : Role) (env : Env) (s0 : State)
    (h0 : poolOf role s0 = none) :
    constructions role (newEvents s0 s0) = 0 ∧
    constructions role (newEvents s0 (initPoolOf role env s0)) = 1 := by
  obtain ⟨_, _, _, _, hev⟩ := initPoolOf_absent role env s0 h0
  constructor
  · simp [constructions, newEvents]
  · rw [hev]
    simp [constructions, Event.isConstruct]

/-- C9: for each role, any number of concurrent callers of the initialiser, started on
a state in which the pool of the role is absent, and any schedule of their steps (with
outer reads that may be stale): at most one pool is constructed; a caller that has
returned shares a state in which the pool is not nil and open, which is the result of a
single initialisation and holds exactly one construction; no two callers are between
`Lock()` and `Unlock()` at once; and from wherever the schedule has led, any given
callers can be scheduled on so that all of them have returned. -/
theorem ensurePool_concurrent (role : Role) (env : Env) (s0 : State)
    (h0 : poolOf role s0 = none) (sched : Schedule) :
    constructions role (newEvents s0 (runInit role env sched (startConc s0)).shared) ≤ 1 ∧
    (∀ i, (runInit role env sched (startConc s0)).pc i = PC.done →
      (runInit role env sched (startConc s0)).shared = initPoolOf role env s0 ∧
      isNil (poolOf role (runInit role env sched (startConc s0)).shared) = false ∧
      IsClosed (poolOf role (runInit role env sched (startConc s0)).shared) = false ∧
      constructions role (newEvents s0 (runInit role env sched (startConc s0)).shared) = 1) ∧
    (∀ i j,
      ((runInit role env sched (startConc s0)).pc i = PC.inner ∨
        (runInit role env sched (startConc s0)).pc i = PC.unlock) →
      ((runInit role env sched (startConc s0)).pc j = PC.inner ∨
        (runInit role env sched (startConc s0)).pc j = PC.unlock) → i = j) ∧
    (∀ callers : List Nat, ∃ more : Schedule,
      ∀ i ∈ callers, (runInit role env (sched ++ more) (startConc s0)).pc i = PC.done) := by
  have hinv := concInv_run role env s0 h0 sched (startConc s0) (concInv_start role env s0)
  obtain ⟨hsh, hhold, hmux, hdone⟩ := hinv
  obtain ⟨_, _, hnil1, hcl1, _⟩ := initPoolOf_absent role env s0 h0
  obtain ⟨c0, c1⟩ := constructions_of_inv role env s0 h0
  refine ⟨?_, ?_, ?_, ?_⟩
  · rcases hsh with h | h
    · rw [h, c0]; omega
    · rw [h, c1]
  · intro i hi
    have h := hdone i (Or.inr hi)
    rw [h]
    exact ⟨rfl, hnil1, hcl1, c1⟩
  · intro i j hi hj
    have a := hhold i hi
    have b := hhold j hj
    rw [a] at b
    exact Option.some.inj b
  · intro callers
    cases hm : (runInit role env sched (startConc s0)).mux with
    | none =>
      obtain ⟨more, _, hall⟩ := complete_from role env s0 h0 callers _
        ⟨hsh, hhold, hmux, hdone⟩ hm
      exact ⟨more, fun i hi => by rw [runInit_append]; exact hall i hi⟩
    | some h =>
      have hph := hmux h hm
      have hp : placed (runInit role env sched (startConc s0)) h := by
        unfold placed
        simp [hph, hm]
      have hr : remaining ((runInit role env sched (startConc s0)).pc h) ≤ 2 := by
        rcases hph with e | e <;> simp [e, remaining]
      obtain ⟨_, hm1⟩ := runInit_alone_done role env h 2 _ hp hr
      have hinv1 := concInv_run role env s0 h0 (List.replicate 2 (h, false)) _
        ⟨hsh, hhold, hmux, hdone⟩
      obtain ⟨more, _, hall⟩ := complete_from role env s0 h0 callers _ hinv1 hm1
      refine ⟨List.replicate 2 (h, false) ++ more, fun i hi => ?_⟩
      rw [runInit_append, runInit_append]
      exact hall i hi

/-- Witness for C9: three callers of `initReadDbPool` on the state without pools, under
an interleaving with a blocked `Lock()` and a stale outer read; all three return and one
pool has been constructed. -/
theorem ensurePool_concurrent_witness :
    poolOf Role.read absentState = none ∧
    (runInit Role.read staleEnv threeCallers (startConc absentState)).pc 0 = PC.done ∧
    (runInit Role.read staleEnv threeCallers (startConc absentState)).pc 1 = PC.done ∧
    (runInit Role.read staleEnv threeCallers (startConc absentState)).pc 2 = PC.done ∧
    constructions Role.read
      (newEvents absentState
        (runInit Role.read staleEnv threeCallers (startConc absentState)).shared) = 1 :=
  ⟨rfl, by decide, by decide, by decide,
   ((ensurePool_concurrent Role.read staleEnv absentState rfl threeCallers).2.1 0
      (by decide)).2.2.2⟩

end Yiigo
